import Mathlib

/-!
# Shallow embedding of the comet-mcp task-orchestration layer

Definitions below translate the TypeScript sources of the repository:

* `task-templates.ts` — the task-template registry (`TaskTemplateRegistry`,
  `matchesTemplate`, `match`, `extractParamsForTemplate` and the built-in
  template table);
* `tool-router.ts` — tool inventory construction (`initialize`) and
  resolution (`findTool`);
* `orchestrator.ts` — `keywordOverlap`, `buildTaskSteps`,
  `buildEnrichmentFallback`, `delegate` and the synchronous execution loop
  `executeTask`;
* `task-queue.ts` — the per-target queue (`enqueue`, `dequeue`,
  `completeActive`, `cancel`), combined with the orchestrator into an
  interleaving transition system (`OrchSys`).

Modelling conventions: JavaScript strings are `String` handled through their
character lists (sources and test inputs are ASCII); `Date.now()` readings are
an explicit stream of observed times; tool invocations are an oracle of
outcomes; JS object parameter bags are association lists of `JSVal` with JS
truthiness.
-/

/-- JS `String.prototype.toLowerCase` on the character list (ASCII range). -/
def lowerChars (l : List Char) : List Char := l.map Char.toLower

/-- JS `String.prototype.toLowerCase`. -/
def jsToLower (s : String) : String := String.mk (lowerChars s.toList)

/-- JS `String.prototype.includes`: substring containment. -/
def strIncludes (s pat : String) : Bool := decide (pat.toList <:+: s.toList)

/-- JS word character (`\w` in a RegExp): letters, digits, underscore. -/
def isWordChar (c : Char) : Bool := c.isAlpha || c.isDigit || c == '_'

/-- Case-insensitive "pattern is a prefix of text" on character lists. -/
def ciPrefixOf : List Char → List Char → Bool
  | [], _ => true
  | _ :: _, [] => false
  | p :: ps, x :: xs => (p.toLower == x.toLower) && ciPrefixOf ps xs

/-- The fields of `String.prototype.split(/\s+/)`: segments of the string
separated by maximal whitespace runs; a leading or trailing run contributes an
empty segment, as in JS. `acc` holds the current segment reversed, `prevWs`
records whether the previous character was whitespace. -/
def jsSplitWsGo : List Char → List Char → Bool → List (List Char)
  | [], acc, _ => [acc.reverse]
  | c :: cs, acc, prevWs =>
    if c.isWhitespace then
      if prevWs then jsSplitWsGo cs [] true
      else acc.reverse :: jsSplitWsGo cs [] true
    else
      jsSplitWsGo cs (c :: acc) false

/-- JS `s.split(/\s+/)`. -/
def jsSplitWs (s : String) : List String :=
  (jsSplitWsGo s.toList [] false).map String.mk

/-- JS `s.replace(/\s+/g, " ")`: collapse each whitespace run to one space. -/
def collapseWsGo : Bool → List Char → List Char
  | _, [] => []
  | prevWs, c :: cs =>
    if c.isWhitespace then
      if prevWs then collapseWsGo true cs
      else ' ' :: collapseWsGo true cs
    else
      c :: collapseWsGo false cs

def collapseWs (s : String) : String := String.mk (collapseWsGo false s.toList)

/-- JS `String.prototype.trim` on character lists. -/
def trimChars (l : List Char) : List Char :=
  ((l.dropWhile Char.isWhitespace).reverse.dropWhile Char.isWhitespace).reverse

def jsTrim (s : String) : String := String.mk (trimChars s.toList)

/-- Tokens of the miniature regular-expression dialect actually used by the
templates' trigger patterns and the source's literal regexes: literal
characters, `c?` (optional character, as in `https?`), `.` and `.*`. -/
inductive RTok
  | lit (c : Char)
  | optc (c : Char)
  | anyOne
  | anyStar
deriving DecidableEq, Repr

/-- Parse a pattern string (already lower-cased for the `i` flag) into tokens. -/
def parseRe : List Char → List RTok
  | [] => []
  | '.' :: '*' :: r => .anyStar :: parseRe r
  | '.' :: r => .anyOne :: parseRe r
  | c :: '?' :: r => .optc c :: parseRe r
  | c :: r => .lit c :: parseRe r

/-- Match a token list against a prefix of the text (RegExp semantics of the
dialect above, `test`-style: no captures needed). Structural recursion on a
fuel bound so the definition evaluates inside the kernel; every recursive call
shrinks `ts.length + xs.length`, so `reMatch` supplies sufficient fuel and the
out-of-fuel branch is never reached. -/
def reMatchGo : Nat → List RTok → List Char → Bool
  | 0, _, _ => false
  | _ + 1, [], _ => true
  | fuel + 1, .lit c :: ts, xs =>
    match xs with
    | [] => false
    | x :: xs' => (x == c) && reMatchGo fuel ts xs'
  | fuel + 1, .optc c :: ts, xs =>
    (match xs with
     | x :: xs' => (x == c) && reMatchGo fuel ts xs'
     | [] => false) || reMatchGo fuel ts xs
  | fuel + 1, .anyOne :: ts, xs =>
    match xs with
    | [] => false
    | _ :: xs' => reMatchGo fuel ts xs'
  | fuel + 1, .anyStar :: ts, xs =>
    reMatchGo fuel ts xs ||
      (match xs with
       | [] => false
       | _ :: xs' => reMatchGo fuel (.anyStar :: ts) xs')

def reMatch (ts : List RTok) (xs : List Char) : Bool :=
  reMatchGo (ts.length + xs.length + 1) ts xs

/-- JS `RegExp.prototype.test`: unanchored match at some position. -/
def reTest (ts : List RTok) : List Char → Bool
  | [] => reMatch ts []
  | xs@(_ :: xs') => reMatch ts xs || reTest ts xs'

/-- `\b` of a RegExp before the first character `first` of a candidate match,
`prev` being the character just before the match position. -/
def boundaryBefore (prev : Option Char) (first : Char) : Bool :=
  match prev with
  | none => isWordChar first
  | some c => isWordChar c != isWordChar first

/-- `\b` after the last character `last` of a candidate match, `next` being the
character just after it. -/
def boundaryAfter (last : Char) (next : Option Char) : Bool :=
  match next with
  | none => isWordChar last
  | some c => isWordChar c != isWordChar last

/-- JS `text.replace(new RegExp("\\b" + escaped + "\\b", "gi"), "")`: remove
every non-overlapping, case-insensitive, word-bounded occurrence of `t`,
scanning left to right (`stripTriggerWords`'s per-trigger replacement). -/
def stripBoundedOccGo : Nat → List Char → Option Char → List Char → List Char
  | 0, _, _, l => l
  | fuel + 1, t, prev, l =>
    match l with
    | [] => []
    | x :: xs =>
      if !t.isEmpty && ciPrefixOf t (x :: xs) && boundaryBefore prev x &&
         boundaryAfter (t.getLastD x) ((x :: xs).get? t.length) then
        stripBoundedOccGo fuel t ((x :: xs).get? (t.length - 1)) ((x :: xs).drop t.length)
      else
        x :: stripBoundedOccGo fuel t (some x) xs

/-- Entry point with fuel covering the text length (each recursive call drops
at least one character, so the out-of-fuel branch is never reached). -/
def stripBoundedOcc (t : List Char) (l : List Char) : List Char :=
  stripBoundedOccGo (l.length + 1) t none l

/-! ## JS values and parameter bags -/

/-- The JS values that flow through parameter bags in the sources. -/
inductive JSVal
  | str (s : String)
  | num (n : Int)
  | bool (b : Bool)
  | null
deriving DecidableEq, Repr

/-- JS truthiness. -/
def truthy : JSVal → Bool
  | .str s => !(s == "")
  | .num n => !(n == 0)
  | .bool b => b
  | .null => false

/-- Truthiness of `obj.key` where a missing key reads as `undefined`. -/
def truthyO : Option JSVal → Bool
  | none => false
  | some v => truthy v

/-- A JS object used as a parameter bag: an association list, insertion
ordered, with unique keys maintained by `pset`. -/
abbrev Params : Type := List (String × JSVal)

/-- Property read `obj[k]`. -/
def pget : Params → String → Option JSVal
  | [], _ => none
  | kv :: p, k => if kv.1 == k then some kv.2 else pget p k

/-- Property write `obj[k] = v` (replace in place, else append). -/
def pset (p : Params) (k : String) (v : JSVal) : Params :=
  if List.any p (fun kv => kv.1 == k) then
    List.map (fun kv => if kv.1 == k then (k, v) else kv) p
  else
    p ++ [(k, v)]

/-! ## Task templates (`task-templates.ts`) -/

/-- `ServerName` union type from `types.ts`. -/
inductive ServerName
  | cometMcp
  | cometBrowser
deriving DecidableEq, Repr

def serverNameStr : ServerName → String
  | .cometMcp => "comet-mcp"
  | .cometBrowser => "comet-browser"

/-- `TaskTemplateStep` from `types.ts` (`optional?: boolean` modelled as `Bool`,
since the source only ever tests `optional === true`). -/
structure TaskTemplateStep where
  toolName : String
  server : ServerName
  paramTemplate : Params
  description : String
  optional : Bool
deriving DecidableEq, Repr

/-- `TaskTemplate` from `types.ts`. -/
structure TaskTemplate where
  name : String
  description : String
  triggerPatterns : List String
  defaultParams : Params
  steps : List TaskTemplateStep
deriving DecidableEq, Repr

/-- The `step(toolName, server, description, paramTemplate = {}, optional = false)`
helper of `task-templates.ts`. -/
def step (toolName : String) (server : ServerName) (description : String)
    (paramTemplate : Params) (optional : Bool) : TaskTemplateStep :=
  { toolName := toolName, server := server, paramTemplate := paramTemplate,
    description := description, optional := optional }

/-- `buildBuiltins()` from `task-templates.ts`: the ten built-in templates, in
registration order. -/
def buildBuiltins : List TaskTemplate :=
  [ { name := "research-extract",
      description := "Deep research then extract content from result page",
      triggerPatterns :=
        ["research.*then extract", "research.*then get", "research.*citations",
         "research.*pull from result", "deep dive.*then extract",
         "deep dive.*then get", "analyze.*then extract", "analyze.*then get"],
      defaultParams := [],
      steps :=
        [step "comet_connect" .cometMcp "Ensure Comet connection" [] false,
         step "comet_mode" .cometMcp "Set Comet to research mode" [("mode", .str "research")] false,
         step "comet_ask" .cometMcp "Submit research query" [] false,
         step "comet_poll" .cometMcp "Wait for research completion" [] false,
         step "comet_get_content" .cometBrowser "Extract content from result page" [] false] },
    { name := "research",
      description := "Deep research using Comet AI",
      triggerPatterns := ["research", "deep dive", "analyze"],
      defaultParams := [],
      steps :=
        [step "comet_connect" .cometMcp "Ensure Comet connection" [] false,
         step "comet_mode" .cometMcp "Set Comet to research mode" [("mode", .str "research")] false,
         step "comet_ask" .cometMcp "Submit research query" [] false,
         step "comet_poll" .cometMcp "Wait for research completion" [] false] },
    { name := "search",
      description := "Quick search using Comet AI",
      triggerPatterns := ["search", "look up", "quick search", "what is", "find out"],
      defaultParams := [],
      steps :=
        [step "comet_connect" .cometMcp "Ensure Comet connection" [] false,
         step "comet_mode" .cometMcp "Set Comet to search mode" [("mode", .str "search")] false,
         step "comet_ask" .cometMcp "Submit search query" [] false,
         step "comet_poll" .cometMcp "Wait for search completion" [] false] },
    { name := "navigate-extract",
      description := "Navigate to URL and extract page content",
      triggerPatterns :=
        ["extract.*https?://", "scrape.*https?://", "get content.*https?://",
         "pull data.*https?://", "https?://.*extract", "https?://.*scrape",
         "https?://.*get content", "https?://.*pull data"],
      defaultParams := [],
      steps :=
        [step "comet_navigate" .cometBrowser "Navigate to URL" [] false,
         step "comet_get_content" .cometBrowser "Extract page content" [] false] },
    { name := "navigate",
      description := "Navigate browser to a URL",
      triggerPatterns := ["go to", "open", "navigate to"],
      defaultParams := [],
      steps := [step "comet_navigate" .cometBrowser "Navigate to URL" [] false] },
    { name := "shortwave-saved-prompt",
      description := "Run a Shortwave saved prompt command",
      triggerPatterns :=
        ["shortwave /analyze", "shortwave /tasks", "shortwave /plan",
         "shortwave /checklist", "shortwave /clarity", "shortwave /specify"],
      defaultParams := [("mode", .str "Advanced")],
      steps :=
        [step "comet_connect" .cometMcp "Ensure Comet connection" [] false,
         step "comet_navigate" .cometBrowser "Open Shortwave" [("url", .str "https://app.shortwave.com/")] false,
         step "comet_find_elements" .cometBrowser "Find mode selector" [] true,
         step "comet_click" .cometBrowser "Set Advanced mode" [] true,
         step "comet_type" .cometBrowser "Enter saved prompt command" [] false,
         step "comet_wait" .cometBrowser "Wait for response" [] false,
         step "comet_get_content" .cometBrowser "Extract response" [] false] },
    { name := "shortwave-triage",
      description := "Triage emails via Shortwave AI assistant",
      triggerPatterns :=
        ["shortwave triage", "email triage shortwave", "batch listen email",
         "shortwave email triage"],
      defaultParams := [("mode", .str "Advanced")],
      steps :=
        [step "comet_connect" .cometMcp "Ensure Comet connection" [] false,
         step "comet_navigate" .cometBrowser "Open Shortwave" [("url", .str "https://app.shortwave.com/")] false,
         step "comet_find_elements" .cometBrowser "Find mode selector" [] true,
         step "comet_click" .cometBrowser "Set Advanced mode" [] true,
         step "comet_click" .cometBrowser "Focus query input" [] false,
         step "comet_type" .cometBrowser "Enter /analyze triage prompt" [] false,
         step "comet_wait" .cometBrowser "Wait for triage response" [] false,
         step "comet_get_content" .cometBrowser "Extract triage results" [] false] },
    { name := "shortwave-query",
      description := "Ask Shortwave AI email assistant a question",
      triggerPatterns := ["shortwave", "ask shortwave", "email assistant", "shortwave query"],
      defaultParams := [("mode", .str "Advanced")],
      steps :=
        [step "comet_connect" .cometMcp "Ensure Comet connection" [] false,
         step "comet_navigate" .cometBrowser "Open Shortwave" [("url", .str "https://app.shortwave.com/")] false,
         step "comet_find_elements" .cometBrowser "Find mode selector" [] true,
         step "comet_click" .cometBrowser "Set Advanced mode" [] true,
         step "comet_click" .cometBrowser "Focus query input" [] false,
         step "comet_type" .cometBrowser "Enter query" [] false,
         step "comet_wait" .cometBrowser "Wait for response" [] false,
         step "comet_get_content" .cometBrowser "Extract response" [] false] },
    { name := "dom-interact",
      description := "Interact with page DOM elements (click, type, scroll, etc.)",
      triggerPatterns := ["click", "type", "fill", "scroll", "submit", "form"],
      defaultParams := [],
      steps :=
        [step "comet_find_elements" .cometBrowser "Find target element" [] false,
         step "comet_click" .cometBrowser "Perform DOM interaction" [] false] },
    { name := "screenshot",
      description := "Capture a screenshot of the current page",
      triggerPatterns := ["screenshot", "capture", "take picture"],
      defaultParams := [],
      steps := [step "comet_screenshot" .cometMcp "Take screenshot" [] false] } ]

/-- `URL_RE = /https?:\/\//i` as tokens of the mini dialect. -/
def urlReToks : List RTok := parseRe "https?://".toList

/-- `URL_RE.test(description)` (the `i` flag realised by lower-casing). -/
def urlReTest (description : String) : Bool :=
  reTest urlReToks (jsToLower description).toList

/-- The extraction verbs required by `navigate-extract` on top of a URL. -/
def extractionWords : List String := ["extract", "scrape", "get content", "pull data"]

/-- `TaskTemplateRegistry.matchesTemplate(template, lower, hasUrl)`: the
`navigate` family is special-cased by name; all other templates try each
trigger pattern, regex-style when the pattern embeds a URL scheme, as a plain
substring otherwise. -/
def matchesTemplate (template : TaskTemplate) (lower : String) (hasUrl : Bool) : Bool :=
  if template.name == "navigate" || template.name == "navigate-extract" then
    if !hasUrl then
      -- Also match "go to"/"open"/"navigate to" without URL for plain navigate
      if template.name == "navigate" then
        template.triggerPatterns.any (fun p => strIncludes lower p)
      else false
    else
      if template.name == "navigate-extract" then
        extractionWords.any (fun w => strIncludes lower w)
      else true
  else
    template.triggerPatterns.any (fun pattern =>
      if strIncludes pattern "https?://" then
        reTest (parseRe (jsToLower pattern).toList) lower.toList
      else strIncludes lower pattern)

/-- The scan of `TaskTemplateRegistry.match` over the insertion-ordered
template list: first match wins. -/
def registryMatchGo (lower : String) (hasUrl : Bool) : List TaskTemplate → Option TaskTemplate
  | [] => none
  | t :: ts =>
    if matchesTemplate t lower hasUrl then some t else registryMatchGo lower hasUrl ts

/-- `TaskTemplateRegistry.match(description)` (named `registryMatch` because
`match` is reserved in Lean): lower-case once, test for a URL once, scan in
registration order, `none` when nothing matches. -/
def registryMatch (ordered : List TaskTemplate) (description : String) : Option TaskTemplate :=
  registryMatchGo (jsToLower description) (urlReTest description) ordered

/-- The registry state: `ordered` is the insertion-ordered template list (the
name-keyed `Map` of the source is derivable from it: see
`TaskTemplateRegistry.get`). -/
structure TaskTemplateRegistry where
  ordered : List TaskTemplate
deriving DecidableEq, Repr

/-- Registry with built-ins (the default constructor). -/
def builtinRegistry : TaskTemplateRegistry := ⟨buildBuiltins⟩

/-- `register(template)`: error when the name is taken, else append. -/
def TaskTemplateRegistry.register (r : TaskTemplateRegistry) (t : TaskTemplate) :
    Except String TaskTemplateRegistry :=
  if r.ordered.any (fun u => u.name == t.name) then
    .error ("Template \x22" ++ t.name ++ "\x22 is already registered")
  else
    .ok ⟨r.ordered ++ [t]⟩

/-- `get(name)`: exact name lookup. -/
def TaskTemplateRegistry.get (r : TaskTemplateRegistry) (name : String) : Option TaskTemplate :=
  r.ordered.find? (fun t => t.name == name)

/-! ## Keyword overlap (`orchestrator.ts`) -/

/-- `keywordOverlap(description, template)` from `orchestrator.ts`: word-level
intersection of the description against the trigger-pattern vocabulary,
skipping words that start with a URL scheme fragment (`/^https\?/`),
normalised to `hits / total`, `0` when there is no vocabulary. -/
def keywordOverlap (description : String) (t : TaskTemplate) : ℚ :=
  let descWords := jsSplitWs (jsToLower description)
  let counts := t.triggerPatterns.foldl (fun acc pattern =>
    (jsSplitWs (jsToLower pattern)).foldl (fun (acc : Nat × Nat) w =>
      if "https?".toList.isPrefixOf w.toList then acc
      else (acc.1 + (if descWords.contains w then 1 else 0), acc.2 + 1)) acc)
    ((0 : Nat), (0 : Nat))
  if counts.2 = 0 then 0 else (counts.1 : ℚ) / (counts.2 : ℚ)

/-- The template's plain-word trigger vocabulary as the spec words it:
whitespace-split trigger-pattern words with the URL-scheme/regex fragments
(those starting with `https?`) excluded. -/
def plainTriggerWords (t : TaskTemplate) : List String :=
  ((t.triggerPatterns.map (fun p => jsSplitWs (jsToLower p))).flatten).filter
    (fun w => !("https?".toList.isPrefixOf w.toList))

/-- The confidence score exactly as the spec sentence describes it: hits over
the plain-word trigger vocabulary, `0` when that vocabulary is empty. -/
def specConfidence (description : String) (t : TaskTemplate) : ℚ :=
  let ws := plainTriggerWords t
  let descWords := jsSplitWs (jsToLower description)
  if ws.length = 0 then 0
  else ((ws.countP (fun w => descWords.contains w) : ℚ)) / (ws.length : ℚ)

/-! ## Parameter extraction (`task-templates.ts`) -/

def RESEARCH_TRIGGER_WORDS : List String := ["research", "deep dive", "analyze", "look into"]

def SEARCH_TRIGGER_WORDS : List String :=
  ["search for", "search", "look up", "quick search", "what is", "find out about", "find out"]

def SHORTWAVE_TRIGGER_WORDS : List String :=
  ["shortwave", "ask shortwave", "email assistant", "shortwave query",
   "shortwave triage", "email triage"]

/-- Insert `x` after every accumulated element of length `≥ x.length`
(the stable descending-by-length order of `triggers.sort((a, b) => b.length - a.length)`). -/
def insertByLenDesc : List String → String → List String
  | [], x => [x]
  | y :: ys, x =>
    if x.length ≤ y.length then y :: insertByLenDesc ys x else x :: y :: ys

/-- JS `Array.prototype.sort` (stable) with comparator `(a, b) => b.length - a.length`. -/
def sortByLenDesc (l : List String) : List String :=
  l.foldl insertByLenDesc []

/-- Leading-punctuation class `[,.:;!?\-]` of `stripTriggerWords`'s cleanup. -/
def leadPunctChar (c : Char) : Bool :=
  c == ',' || c == '.' || c == ':' || c == ';' || c == '!' || c == '?' || c == '-'

/-- `text.replace(/^\s*[,.:;!?\-]+\s*/, "")`: strip one leading run of
whitespace, punctuation (at least one) and whitespace; no-op otherwise. -/
def stripLeadPunct (s : String) : String :=
  let a := s.toList.dropWhile Char.isWhitespace
  match a with
  | [] => s
  | c :: _ =>
    if leadPunctChar c then
      String.mk ((a.dropWhile leadPunctChar).dropWhile Char.isWhitespace)
    else s

/-- `stripTriggerWords(description, triggers)` from `task-templates.ts`:
remove each trigger (longest first, word-bounded, case-insensitive, global),
then clean up leading punctuation, collapse whitespace and trim. -/
def stripTriggerWords (description : String) (triggers : List String) : String :=
  let text := (sortByLenDesc triggers).foldl
    (fun text t => String.mk (stripBoundedOcc t.toList text.toList)) description
  jsTrim (collapseWs (stripLeadPunct text))

/-- JS `a || b` on strings (`""` is falsy). -/
def strOrElse (s d : String) : String := if s == "" then d else s

def compoundSeparators : List String := [" then ", " and then ", ", then ", " afterwards "]

/-- JS `String.prototype.indexOf` on character lists. -/
def indexOfSub (sub : List Char) : List Char → Nat → Option Nat
  | [], i => if sub.isEmpty then some i else none
  | l@(_ :: xs), i => if sub.isPrefixOf l then some i else indexOfSub sub xs (i + 1)

/-- `extractCompoundParts(description)`: the first separator occurring at a
strictly positive index splits the description into trimmed left/right parts. -/
def extractCompoundGo (description lower : String) : List String → Option (String × String)
  | [] => none
  | sep :: rest =>
    match indexOfSub sep.toList lower.toList 0 with
    | some idx =>
      if 0 < idx then
        some (jsTrim (String.mk (description.toList.take idx)),
              jsTrim (String.mk (description.toList.drop (idx + sep.length))))
      else extractCompoundGo description lower rest
    | none => extractCompoundGo description lower rest

def extractCompoundParts (description : String) : Option (String × String) :=
  extractCompoundGo description (jsToLower description) compoundSeparators

/-- One attempt of `URL_EXTRACT_RE = /https?:\/\/\S+/i` at the head of `l`:
`http`, optionally `s`, `://`, then at least one non-whitespace character. -/
def tryUrlAt (l : List Char) : Option (List Char) :=
  if ciPrefixOf "http".toList l then
    let rest4 := l.drop 4
    if ciPrefixOf "s://".toList rest4 then
      let body := (l.drop 8).takeWhile (fun c => !c.isWhitespace)
      if body.isEmpty then none else some (l.take (8 + body.length))
    else if ciPrefixOf "://".toList rest4 then
      let body := (l.drop 7).takeWhile (fun c => !c.isWhitespace)
      if body.isEmpty then none else some (l.take (7 + body.length))
    else none
  else none

/-- `description.match(URL_EXTRACT_RE)`: leftmost match, original casing. -/
def findUrlMatch : List Char → Option (List Char)
  | [] => none
  | l@(_ :: xs) =>
    match tryUrlAt l with
    | some m => some m
    | none => findUrlMatch xs

/-- Alternatives of `SHORTWAVE_PROMPT_RE = /\/(analyze|tasks|plan|checklist|clarity|specify)\b/i`. -/
def shortwavePromptWords : List String :=
  ["analyze", "tasks", "plan", "checklist", "clarity", "specify"]

/-- One attempt of `SHORTWAVE_PROMPT_RE` at the head of `l`: a slash, one of
the alternatives (tried in order, case-insensitively), then `\b`; returns the
captured group in original casing. -/
def trySwPromptAt : List Char → Option (List Char)
  | '/' :: rest =>
    shortwavePromptWords.findSome? (fun w =>
      if ciPrefixOf w.toList rest &&
         (match rest.get? w.length with
          | none => true
          | some c => !isWordChar c) then
        some (rest.take w.length)
      else none)
  | _ => none

/-- `description.match(SHORTWAVE_PROMPT_RE)`: leftmost match's capture. -/
def findSwPrompt : List Char → Option (List Char)
  | [] => none
  | l@(_ :: xs) =>
    match trySwPromptAt l with
    | some m => some m
    | none => findSwPrompt xs

/-- `extractParamsForTemplate(description, template)` from `task-templates.ts`:
start from the template's `defaultParams` and fill template-specific keys by
switching on the template name (unknown names fall through with the defaults
only). -/
def extractParamsForTemplate (description : String) (template : TaskTemplate) : Params :=
  let params := template.defaultParams
  if template.name == "research" || template.name == "search" then
    let triggers :=
      if template.name == "research" then RESEARCH_TRIGGER_WORDS else SEARCH_TRIGGER_WORDS
    pset params "prompt" (.str (strOrElse (stripTriggerWords description triggers) description))
  else if template.name == "research-extract" then
    match extractCompoundParts description with
    | some parts =>
      pset (pset params "prompt"
          (.str (strOrElse (stripTriggerWords parts.1 RESEARCH_TRIGGER_WORDS) parts.1)))
        "extractionTarget" (.str parts.2)
    | none =>
      pset params "prompt"
        (.str (strOrElse (stripTriggerWords description RESEARCH_TRIGGER_WORDS) description))
  else if template.name == "navigate" then
    match findUrlMatch description.toList with
    | some u => pset params "url" (.str (String.mk u))
    | none => params
  else if template.name == "navigate-extract" then
    let params :=
      match findUrlMatch description.toList with
      | some u => pset params "url" (.str (String.mk u))
      | none => params
    match extractCompoundParts description with
    | some parts => pset params "extractionTarget" (.str parts.2)
    | none => params
  else if template.name == "shortwave-query" then
    pset params "query"
      (.str (strOrElse (stripTriggerWords description SHORTWAVE_TRIGGER_WORDS) description))
  else if template.name == "shortwave-triage" then
    pset params "query" (.str "/analyze")
  else if template.name == "shortwave-saved-prompt" then
    pset params "promptCommand"
      (.str (match findSwPrompt description.toList with
             | some cap => "/" ++ String.mk cap
             | none => "/analyze"))
  else if template.name == "dom-interact" then
    let lower := jsToLower description
    let params :=
      if strIncludes lower "click" then pset params "action" (.str "click")
      else if strIncludes lower "type" || strIncludes lower "fill" then
        pset params "action" (.str "type")
      else if strIncludes lower "scroll" then pset params "action" (.str "scroll")
      else if strIncludes lower "submit" then pset params "action" (.str "click")
      else params
    pset params "target" (.str description)
  else params

/-! ## Concrete task steps (`orchestrator.ts`) -/

/-- `StepStatus` union type from `types.ts`. -/
inductive StepStatus
  | pending
  | running
  | completed
  | failed
  | skipped
deriving DecidableEq, Repr

deriving instance DecidableEq for Except

/-- `TaskStep` from `types.ts`; `result` holds a step success value or the
failure message the executor records. -/
structure TaskStep where
  toolName : String
  server : ServerName
  params : Params
  result : Option (Except String JSVal)
  status : StepStatus
  duration_ms : Option Int
deriving DecidableEq, Repr

/-- `buildTaskSteps(template, extracted)` from `orchestrator.ts`: each template
step's `paramTemplate` is copied and extracted values fill tool-specific keys,
each write guarded by the truthiness checks of the source. -/
def buildTaskSteps (template : TaskTemplate) (extracted : Params) : List TaskStep :=
  template.steps.map (fun s =>
    let params := s.paramTemplate
    let params :=
      if s.toolName == "comet_ask" then
        if truthyO (pget extracted "prompt") && !truthyO (pget params "prompt") then
          pset params "prompt" ((pget extracted "prompt").getD .null)
        else params
      else if s.toolName == "comet_navigate" then
        if truthyO (pget extracted "url") && !truthyO (pget params "url") then
          pset params "url" ((pget extracted "url").getD .null)
        else params
      else if s.toolName == "comet_type" then
        let params :=
          if truthyO (pget extracted "query") && !truthyO (pget params "text") then
            pset params "text" ((pget extracted "query").getD .null)
          else params
        if truthyO (pget extracted "promptCommand") && !truthyO (pget params "text") then
          pset params "text" ((pget extracted "promptCommand").getD .null)
        else params
      else if s.toolName == "comet_get_content" then
        if truthyO (pget extracted "extractionTarget") && !truthyO (pget params "selector") then
          pset params "extractionHint" ((pget extracted "extractionTarget").getD .null)
        else params
      else if s.toolName == "comet_find_elements" then
        if truthyO (pget extracted "target") && !truthyO (pget params "selector") then
          pset params "selector" ((pget extracted "target").getD .null)
        else params
      else if s.toolName == "comet_click" then
        if truthyO (pget extracted "target") && !truthyO (pget params "selector") then
          pset params "selector" ((pget extracted "target").getD .null)
        else params
      else params
    { toolName := s.toolName, server := s.server, params := params,
      result := none, status := .pending, duration_ms := none })

/-! ## Tool router (`tool-router.ts`, maps from `types.ts`) -/

/-- `SERVER_ALIAS_MAP` from `types.ts` (unknown alias reads as `undefined`). -/
def SERVER_ALIAS_MAP : String → Option ServerName
  | "mcp" => some .cometMcp
  | "browser" => some .cometBrowser
  | _ => none

/-- `SERVER_NAME_TO_ALIAS` from `types.ts`. -/
def SERVER_NAME_TO_ALIAS : ServerName → String
  | .cometMcp => "mcp"
  | .cometBrowser => "browser"

/-- `TOOL_COLLISIONS` from `types.ts`: tool name → winning server. -/
def TOOL_COLLISIONS : List (String × ServerName) :=
  [("comet_connect", .cometMcp), ("comet_screenshot", .cometMcp)]

/-- `ToolDescriptor` from `types.ts`. -/
structure ToolDescriptor where
  name : String
  qualifiedName : String
  server : ServerName
  category : String
  schema : Params
  description : String
  isCanonical : Bool
deriving DecidableEq, Repr

/-- The `isCanonical` stamp computed inside `ToolRouter.initialize()`:
`tool.name in TOOL_COLLISIONS ? TOOL_COLLISIONS[tool.name] === tool.server : true`. -/
def collisionCanonical (nm : String) (sv : ServerName) : Bool :=
  match List.find? (fun kv => kv.1 == nm) TOOL_COLLISIONS with
  | some kv => kv.2 == sv
  | none => true

/-- `ToolRouter.initialize()`: concatenate local and remote tools and stamp
each with its qualified name and canonicality from the collision map. -/
def routerInitialize (localTools remoteTools : List ToolDescriptor) : List ToolDescriptor :=
  (localTools ++ remoteTools).map (fun tool =>
    let aliasStr := SERVER_NAME_TO_ALIAS tool.server
    { tool with qualifiedName := aliasStr ++ ":" ++ tool.name,
                isCanonical := collisionCanonical tool.name tool.server })

/-- JS `name.split(":", 2)`: the segments before the first and between the
first and second colon. -/
def splitColonFirst (s : String) : String × String :=
  let pre := s.toList.takeWhile (fun c => c != ':')
  let post := (s.toList.drop (pre.length + 1)).takeWhile (fun c => c != ':')
  (String.mk pre, String.mk post)

/-- `ToolRouter.findTool(name)`: alias-qualified names resolve within the named
server; bare names collect all matches and prefer the canonical one, falling
back to the first match. -/
def findTool (inventory : List ToolDescriptor) (name : String) : Option ToolDescriptor :=
  if strIncludes name ":" then
    let parts := splitColonFirst name
    match SERVER_ALIAS_MAP parts.1 with
    | none => none
    | some server =>
      inventory.find? (fun t => t.server == server && t.name == parts.2)
  else
    let found := inventory.filter (fun t => t.name == name)
    match found with
    | [] => none
    | _ =>
      match found.find? (fun t => t.isCanonical) with
      | some t => some t
      | none => found.head?

/-! ## Task delegation data (`types.ts`) -/

/-- `TaskState` union type. -/
inductive TaskState
  | pending
  | running
  | completed
  | failed
  | cancelled
deriving DecidableEq, Repr

/-- `TaskDelegation` from `types.ts`; times are the `Date.now()` readings. -/
structure TaskDelegation where
  id : String
  description : String
  state : TaskState
  targetTabId : Option String
  steps : List TaskStep
  currentStepIndex : Nat
  timeout_ms : Nat
  startedAt : Option Nat
  completedAt : Option Nat
deriving DecidableEq, Repr

/-- `TaskResult.status` union type (async delegation also returns `pending`). -/
inductive ResultStatus
  | success
  | failure
  | partialResult
  | cancelled
  | pending
deriving DecidableEq, Repr

/-- `TaskError` from `types.ts`. -/
structure TaskError where
  code : String
  message : String
  recoverable : Bool
  failedStep : Option Nat
deriving DecidableEq, Repr

/-- `TemplateSuggestion` from `types.ts`. -/
structure TemplateSuggestion where
  name : String
  description : String
  confidence : ℚ
deriving DecidableEq

/-- `DelegateEnrichmentResponse` from `types.ts` (`tool_inventory` entries are
`(name, category, server)`; `server_health` maps component name to level). -/
structure DelegateEnrichmentResponse where
  matched : Bool
  description : String
  available_templates : List TemplateSuggestion
  tool_inventory : List (String × String × String)
  server_health : List (String × String)
deriving DecidableEq

/-- The `payload` values a `TaskResult` can carry in the sources: a step value
(or `null`), the enrichment response, or the `{ taskId }` reference returned by
an async delegation. -/
inductive Payload
  | val (v : JSVal)
  | enrich (e : DelegateEnrichmentResponse)
  | taskRef (taskId : String)
deriving DecidableEq

/-- `TaskResult` from `types.ts`. -/
structure TaskResult where
  status : ResultStatus
  payload : Payload
  duration_ms : Int
  tools_invoked : List String
  steps_completed : Nat
  steps_total : Nat
  error : Option TaskError
deriving DecidableEq

/-! ## Synchronous execution (`orchestrator.ts`) -/

/-- The executor's environment: `clock n` is the value of the executor's
`n`-th `Date.now()` call; `outcome i` is what step `i`'s invocation produces —
`ok v` for a successful tool result `v`, `error e` for a thrown error or a
`success: false` tool result (converted to a throw by the source). The
dormancy-manager guard before tab-group tools mutates no orchestrator state
and is therefore invisible here. -/
structure ExecEnv where
  clock : Nat → Nat
  outcome : Nat → Except String JSVal

def DEFAULT_TIMEOUT_MS : Nat := 60000

/-- `CometOrchestrator.isOptionalStep(task, stepIndex)`: re-match the task's
description and read `template.steps[stepIndex]?.optional === true`. -/
def isOptionalStep (reg : List TaskTemplate) (description : String) (stepIndex : Nat) : Bool :=
  match registryMatch reg description with
  | none => false
  | some template =>
    match template.steps.get? stepIndex with
    | some s => s.optional
    | none => false

/-- What `executeTask` leaves behind: the returned `TaskResult` plus the
mutations applied to the task object. -/
structure ExecOut where
  result : TaskResult
  steps : List TaskStep
  state : TaskState
  completedAt : Option Nat
  currentStepIndex : Nat
deriving DecidableEq

/-- The step loop of `CometOrchestrator.executeTask`. `done` holds processed
steps reversed, `rest` the remaining ones, `i` the loop index, `k` the index of
the executor's next `Date.now()` call (the loop performs three reads per
iteration: deadline boundary, step start, step end), `cur` the last value
written to `task.currentStepIndex`, `tools` the `tools_invoked` accumulator
and `lastR` the last successful step value. The deadline was computed once by
`executeTask` and is passed down unchanged. Error messages are summarised by
constants where the source interpolates values. -/
def execLoop (reg : List TaskTemplate) (env : ExecEnv) (description : String)
    (deadline t0 total : Nat) :
    List TaskStep → List TaskStep → Nat → Nat → Nat → List String → JSVal → ExecOut
  | done, [], _i, k, cur, tools, lastR =>
    { result := { status := .success, payload := .val lastR,
                  duration_ms := (env.clock (k + 1) : Int) - (t0 : Int),
                  tools_invoked := tools, steps_completed := total, steps_total := total,
                  error := none },
      steps := done.reverse, state := .completed,
      completedAt := some (env.clock k), currentStepIndex := cur }
  | done, s :: rest, i, k, cur, tools, lastR =>
    if env.clock k ≥ deadline then
      { result := { status := .partialResult, payload := .val lastR,
                    duration_ms := (env.clock (k + 2) : Int) - (t0 : Int),
                    tools_invoked := tools, steps_completed := i, steps_total := total,
                    error := some { code := "TIMEOUT", message := "Task timed out",
                                    recoverable := false, failedStep := some i } },
        steps := done.reverse ++ s :: rest, state := .completed,
        completedAt := some (env.clock (k + 1)), currentStepIndex := cur }
    else
      let stepStart := env.clock (k + 1)
      match env.outcome i with
      | .ok v =>
        let s' : TaskStep :=
          { s with status := .completed, result := some (.ok v),
                   duration_ms := some ((env.clock (k + 2) : Int) - (stepStart : Int)) }
        execLoop reg env description deadline t0 total (s' :: done) rest (i + 1) (k + 3) i
          (tools ++ [s.toolName]) v
      | .error e =>
        let s' : TaskStep :=
          { s with status := .failed, result := some (.error e),
                   duration_ms := some ((env.clock (k + 2) : Int) - (t0 : Int)) }
        if isOptionalStep reg description i then
          let s'' : TaskStep := { s' with status := .skipped }
          execLoop reg env description deadline t0 total (s'' :: done) rest (i + 1) (k + 3) i
            (tools ++ [s.toolName]) lastR
        else
          { result := { status := .failure, payload := .val lastR,
                        duration_ms := (env.clock (k + 4) : Int) - (t0 : Int),
                        tools_invoked := tools, steps_completed := i, steps_total := total,
                        error := some { code := "STEP_FAILED", message := e,
                                        recoverable := false, failedStep := some i } },
            steps := done.reverse ++ s' :: rest, state := .failed,
            completedAt := some (env.clock (k + 3)), currentStepIndex := i }

/-- `CometOrchestrator.executeTask(task)`: mark running, stamp `startedAt`,
compute the deadline once as `startedAt + timeout_ms`, then run the loop.
(The `completeActive` call on the success path acts on the task queue and is
modelled in the `OrchSys` transition system below.) -/
def executeTask (reg : List TaskTemplate) (env : ExecEnv) (task : TaskDelegation) :
    TaskResult × TaskDelegation :=
  let t0 := env.clock 0
  let deadline := t0 + task.timeout_ms
  let out := execLoop reg env task.description deadline t0 task.steps.length
    [] task.steps 0 1 task.currentStepIndex [] .null
  (out.result,
   { task with state := out.state, startedAt := some t0,
               completedAt := out.completedAt, steps := out.steps,
               currentStepIndex := out.currentStepIndex })

/-! ## Delegation entry point (`orchestrator.ts`) -/

/-- The `delegate` options object. -/
structure DelegateOptions where
  targetTab : Option String
  timeout_ms : Option Nat
  async : Bool
  template : Option String
deriving DecidableEq, Repr

/-- The collaborator state `buildEnrichmentFallback` reads: the router's
inventory and the health snapshot (cached or freshly probed — either way a
component-name → level map by the time it is used). -/
structure OrchestratorEnv where
  inventory : List ToolDescriptor
  serverHealth : List (String × String)

/-- `failureResult(code, message)` from `orchestrator.ts` (no payload passed
at its call sites modelled here). -/
def failureResult (code message : String) : TaskResult :=
  { status := .failure, payload := .val .null, duration_ms := 0, tools_invoked := [],
    steps_completed := 0, steps_total := 0,
    error := some { code := code, message := message, recoverable := false, failedStep := none } }

/-- `CometOrchestrator.buildEnrichmentFallback(description)`: the
`NO_TEMPLATE_MATCH` failure whose payload scores every registered template by
`keywordOverlap` and snapshots the tool inventory and server health. -/
def buildEnrichmentFallback (reg : List TaskTemplate) (oenv : OrchestratorEnv)
    (description : String) : TaskResult :=
  { status := .failure,
    payload := .enrich
      { matched := false, description := description,
        available_templates := reg.map (fun t =>
          { name := t.name, description := t.description,
            confidence := keywordOverlap description t }),
        tool_inventory := oenv.inventory.map (fun t => (t.name, t.category, serverNameStr t.server)),
        server_health := oenv.serverHealth },
    duration_ms := 0, tools_invoked := [], steps_completed := 0, steps_total := 0,
    error := some { code := "NO_TEMPLATE_MATCH",
                    message := "No template matched the description. See payload for enrichment data.",
                    recoverable := true, failedStep := none } }

/-- `CometOrchestrator.delegate(description, options)`: forced template lookup
(`INVALID_TEMPLATE` when unknown) or registry match (enrichment fallback when
none), parameter extraction, task construction, then either the immediate
async `pending` result or the synchronous execution. `id` stands for the fresh
`randomUUID()`. The returned task records the mutations; its enqueueing is
modelled in `OrchSys`. -/
def delegate (reg : List TaskTemplate) (oenv : OrchestratorEnv) (env : ExecEnv)
    (id : String) (description : String) (options : DelegateOptions) :
    TaskResult × Option TaskDelegation :=
  let tpl : Except TaskResult TaskTemplate :=
    match options.template with
    | some n =>
      match reg.find? (fun t => t.name == n) with
      | some t => .ok t
      | none => .error (failureResult "INVALID_TEMPLATE" "Template not found")
    | none =>
      match registryMatch reg description with
      | some t => .ok t
      | none => .error (buildEnrichmentFallback reg oenv description)
  match tpl with
  | .error r => (r, none)
  | .ok template =>
    let extracted := extractParamsForTemplate description template
    let task : TaskDelegation :=
      { id := id, description := description, state := .pending,
        targetTabId := options.targetTab, steps := buildTaskSteps template extracted,
        currentStepIndex := 0, timeout_ms := options.timeout_ms.getD DEFAULT_TIMEOUT_MS,
        startedAt := none, completedAt := none }
    if options.async then
      ({ status := .pending, payload := .taskRef task.id, duration_ms := 0,
         tools_invoked := [], steps_completed := 0, steps_total := task.steps.length,
         error := none }, some task)
    else
      let rt := executeTask reg env task
      (rt.1, some rt.2)

/-! ## Task queue and interleaved orchestration (`task-queue.ts` + `orchestrator.ts`)

The queue's `Map`s are association lists; the queue and active slot hold task
ids, matching the source's sharing of one `TaskDelegation` object between the
registry, the queues and the executor (mutations through any alias are
mutations of the registry entry here). Suspended synchronous executions are
explicit frames (`ExecCtx`), so arbitrary interleavings of `delegate`,
`cancelTask` and queue calls with in-flight executions can be examined. -/

def GLOBAL_KEY : String := "__global__"

/-- `tabKey(tabId)` from `task-queue.ts`. -/
def tabKey (tabId : Option String) : String := tabId.getD GLOBAL_KEY

/-- `Map.get`. -/
def aget {α : Type} : List (String × α) → String → Option α
  | [], _ => none
  | kv :: l, k => if kv.1 == k then some kv.2 else aget l k

/-- `Map.set`. -/
def aset {α : Type} (l : List (String × α)) (k : String) (v : α) : List (String × α) :=
  if l.any (fun kv => kv.1 == k) then
    l.map (fun kv => if kv.1 == k then (k, v) else kv)
  else l ++ [(k, v)]

/-- `Map.delete`. -/
def adel {α : Type} (l : List (String × α)) (k : String) : List (String × α) :=
  l.filter (fun kv => kv.1 != k)

/-- A suspended `executeTask` frame: the task being driven, the loop index of
the step whose invocation is awaited, and the deadline computed at task start. -/
structure ExecCtx where
  taskId : String
  idx : Nat
  deadline : Nat
deriving DecidableEq, Repr

/-- The combined state: `tasks` is `TaskQueue.taskRegistry`, `queues` and
`active` its per-target queue and active slot (ids), `execs` the in-flight
synchronous executions. -/
structure SysState where
  tasks : List (String × TaskDelegation)
  queues : List (String × List String)
  active : List (String × String)
  execs : List ExecCtx
deriving DecidableEq, Repr

def initSys : SysState := ⟨[], [], [], []⟩

/-- `TaskQueue.getTask(id)` (and thus `getTaskStatus`). -/
def SysState.getTask (s : SysState) (id : String) : Option TaskDelegation :=
  aget s.tasks id

/-- Mutate the (shared) task object registered under `id`. -/
def updTask (s : SysState) (id : String) (f : TaskDelegation → TaskDelegation) : SysState :=
  { s with tasks := s.tasks.map (fun kv => if kv.1 == id then (kv.1, f kv.2) else kv) }

/-- `task.steps[i].status = st`. -/
def setStep (task : TaskDelegation) (i : Nat) (st : StepStatus) : TaskDelegation :=
  { task with steps := task.steps.mapIdx (fun j sp => if j = i then { sp with status := st } else sp) }

/-- `TaskQueue.enqueue(task)`: append to the target's queue, register by id. -/
def enqueueS (s : SysState) (task : TaskDelegation) : SysState :=
  let key := tabKey task.targetTabId
  { s with
    queues := aset s.queues key ((aget s.queues key).getD [] ++ [task.id]),
    tasks := aset s.tasks task.id task }

/-- `TaskQueue.completeActive(tabId)` at time `t`. -/
def completeActiveS (s : SysState) (key : String) (t : Nat) : SysState :=
  match aget s.active key with
  | none => s
  | some a =>
    let s' := updTask s a (fun task => { task with state := .completed, completedAt := some t })
    { s' with active := adel s'.active key }

/-- The pop half of `TaskQueue.dequeue`. -/
def dequeuePop (s : SysState) (key : String) (t : Nat) : SysState :=
  match (aget s.queues key).getD [] with
  | [] => s
  | h :: rest =>
    let s' := { s with queues := aset s.queues key rest }
    let s'' := updTask s' h (fun task => { task with state := .running, startedAt := some t })
    { s'' with active := aset s''.active key h }

/-- `TaskQueue.dequeue(tabId)` at time `t`: blocked while the active task is
still `running`; otherwise clear a stale slot and activate the queue head. -/
def dequeueS (s : SysState) (key : String) (t : Nat) : SysState :=
  match aget s.active key with
  | some a =>
    if (s.getTask a).map TaskDelegation.state == some TaskState.running then s
    else dequeuePop { s with active := adel s.active key } key t
  | none => dequeuePop s key t

/-- `TaskQueue.cancel(taskId)` at time `t`: mark cancelled, stamp
`completedAt`, remove from the pending queue, clear the active slot if this
task occupies it. -/
def cancelS (s : SysState) (id : String) (t : Nat) : SysState :=
  match s.getTask id with
  | none => s
  | some task =>
    let s' := updTask s id (fun task => { task with state := .cancelled, completedAt := some t })
    let key := tabKey task.targetTabId
    let s'' :=
      match aget s'.queues key with
      | none => s'
      | some q => { s' with queues := aset s'.queues key (q.erase id) }
    if aget s''.active key == some id then { s'' with active := adel s''.active key } else s''

/-- The template-resolution and task-construction part of `delegate` (shared
by the async and sync events); `none` when `delegate` returns before creating
a task (unknown forced template, or no registry match). Mirrors the task
literal in `delegate`. -/
def mkDelegatedTask (reg : List TaskTemplate) (id description : String)
    (target : Option String) (forced : Option String) (tmo : Option Nat) :
    Option TaskDelegation :=
  let tpl : Option TaskTemplate :=
    match forced with
    | some n => reg.find? (fun t => t.name == n)
    | none => registryMatch reg description
  tpl.map (fun template =>
    { id := id, description := description, state := .pending, targetTabId := target,
      steps := buildTaskSteps template (extractParamsForTemplate description template),
      currentStepIndex := 0, timeout_ms := tmo.getD DEFAULT_TIMEOUT_MS,
      startedAt := none, completedAt := none })

/-- `delegate(..., { async: true })`: create and enqueue, nothing else. -/
def delAsyncS (reg : List TaskTemplate) (s : SysState) (id description : String)
    (target : Option String) (forced : Option String) (tmo : Option Nat) : SysState :=
  match mkDelegatedTask reg id description target forced tmo with
  | none => s
  | some task => enqueueS s task

/-- A synchronous `delegate` call up to its first suspension: create and
enqueue the task, then `executeTask`'s synchronous prefix — `state := running`,
`startedAt := t0`, deadline fixed once as `t0 + timeout_ms`; an empty plan
completes immediately (releasing the active slot), a deadline hit at the first
check (`t1`) completes with the partial result, otherwise step 0 is marked
`running` and the execution suspends in the first invocation. -/
def delSyncS (reg : List TaskTemplate) (s : SysState) (id description : String)
    (target : Option String) (forced : Option String) (tmo : Option Nat)
    (t0 t1 : Nat) : SysState :=
  match mkDelegatedTask reg id description target forced tmo with
  | none => s
  | some task =>
    let s' := enqueueS s task
    let deadline := t0 + task.timeout_ms
    if task.steps.isEmpty then
      let s'' := updTask s' id (fun task =>
        { task with state := .completed, startedAt := some t0, completedAt := some t1 })
      completeActiveS s'' (tabKey task.targetTabId) t1
    else if t1 ≥ deadline then
      updTask s' id (fun task =>
        { task with state := .completed, startedAt := some t0, completedAt := some t1 })
    else
      let s'' := updTask s' id (fun task =>
        setStep { task with state := .running, startedAt := some t0, currentStepIndex := 0 } 0 .running)
      { s'' with execs := s''.execs ++ [{ taskId := id, idx := 0, deadline := deadline }] }

/-- Continue the loop after step `i` of the frame's task has been disposed:
finish the task when it was the last step (success path, including the
`completeActive` release), stop at the deadline (`t3` is the boundary
reading), or mark step `i + 1` running and stay suspended. `task` is the
frame's task as read at resumption (its `targetTabId` and plan length are
never mutated). -/
def execContinue (s : SysState) (ctx : ExecCtx) (task : TaskDelegation)
    (i t3 : Nat) : SysState :=
  let j := i + 1
  if j < task.steps.length then
    if t3 ≥ ctx.deadline then
      let s' := updTask s ctx.taskId (fun task =>
        { task with state := .completed, completedAt := some t3 })
      { s' with execs := s'.execs.filter (fun c => c.taskId != ctx.taskId) }
    else
      let s' := updTask s ctx.taskId (fun task =>
        setStep { task with currentStepIndex := j } j .running)
      { s' with execs := s'.execs.map (fun c =>
          if c.taskId == ctx.taskId then { c with idx := j } else c) }
  else
    let s' := updTask s ctx.taskId (fun task =>
      { task with state := .completed, completedAt := some t3 })
    let s'' := completeActiveS s' (tabKey task.targetTabId) t3
    { s'' with execs := s''.execs.filter (fun c => c.taskId != ctx.taskId) }

/-- The awaited invocation of the current step returns with `outcome` at `t2`
and the loop continues synchronously to its next suspension (or return).
Without a frame for `id` (no such execution in flight) nothing happens. -/
def stepDoneS (reg : List TaskTemplate) (s : SysState) (id : String)
    (outcome : Except String JSVal) (t2 t3 : Nat) : SysState :=
  match s.execs.find? (fun c => c.taskId == id) with
  | none => s
  | some ctx =>
    match s.getTask id with
    | none => s
    | some task =>
      let i := ctx.idx
      match outcome with
      | .ok _v =>
        let s' := updTask s id (fun task => setStep task i .completed)
        execContinue s' ctx task i t3
      | .error _e =>
        if isOptionalStep reg task.description i then
          let s' := updTask s id (fun task => setStep task i .skipped)
          execContinue s' ctx task i t3
        else
          let s' := updTask s id (fun task =>
            { setStep task i .failed with state := .failed, completedAt := some t2 })
          { s' with execs := s'.execs.filter (fun c => c.taskId != id) }

/-- One interleaving event. Times are the `Date.now()` readings the event
observes; `outcome` is what the awaited step invocation produced. `dequeueEv`
and `completeActiveEv` are the Task Queue's own surface — no production code
path invokes `dequeue` (only tests do), which the production-event predicate
`ProdEv` below records. -/
inductive Ev
  | delAsync (id description : String) (target : Option String)
      (forced : Option String) (tmo : Option Nat)
  | delSync (id description : String) (target : Option String)
      (forced : Option String) (tmo : Option Nat) (t0 t1 : Nat)
  | stepDone (id : String) (outcome : Except String JSVal) (t2 t3 : Nat)
  | cancelEv (id : String) (t : Nat)
  | dequeueEv (key : String) (t : Nat)
  | completeActiveEv (key : String) (t : Nat)
deriving DecidableEq, Repr

def stepEv (reg : List TaskTemplate) (s : SysState) : Ev → SysState
  | .delAsync id desc target forced tmo => delAsyncS reg s id desc target forced tmo
  | .delSync id desc target forced tmo t0 t1 => delSyncS reg s id desc target forced tmo t0 t1
  | .stepDone id outcome t2 t3 => stepDoneS reg s id outcome t2 t3
  | .cancelEv id t => cancelS s id t
  | .dequeueEv key t => dequeueS s key t
  | .completeActiveEv key t => completeActiveS s key t

def runEv (reg : List TaskTemplate) (s : SysState) (tr : List Ev) : SysState :=
  tr.foldl (stepEv reg) s

/-- Events reachable through the orchestrator's production surface
(`delegate` / `getTaskStatus` / `cancelTask`); the queue-only operations
`dequeue` and `completeActive` are exposed by `TaskQueue` but, outside of
`executeTask`'s own completion path (part of `delSync`/`stepDone` here), no
production code path calls them. -/
def ProdEv : Ev → Bool
  | .dequeueEv _ _ => false
  | .completeActiveEv _ _ => false
  | _ => true

/-! ## Claims -/

/-- C1. The claim states that at most one `TaskDelegation` per target is ever
in `running` state, because the Task Queue's single active-slot rule
serializes same-target work; in particular two synchronous `delegate()` calls
for the same target never have both tasks `running` simultaneously. The code
violates this: a synchronous `delegate` marks its task `running` directly in
`executeTask` without ever calling `TaskQueue.dequeue` (the only guard of the
active-slot rule), so two sync delegations for target `"tab9"`, the second
starting while the first is suspended in its first tool invocation, leave both
tasks in `running` state at once. -/
def c1State : SysState :=
  runEv buildBuiltins initSys
    [.delSync "a" "go to x" (some "tab9") none none 0 1,
     .delSync "b" "go to x" (some "tab9") none none 2 3]

theorem c1_two_sync_delegations_both_running :
    (c1State.getTask "a").map TaskDelegation.state = some .running ∧
    (c1State.getTask "b").map TaskDelegation.state = some .running ∧
    (c1State.getTask "a").map TaskDelegation.targetTabId = some (some "tab9") ∧
    (c1State.getTask "b").map TaskDelegation.targetTabId = some (some "tab9") := by
  refine ⟨by decide, by decide, by decide, by decide⟩

/-- C3. The claim states that a cancelled task never transitions to any other
state and no further step of it is ever marked running or executed, regardless
of subsequent executor activity. The code violates this: `executeTask` never
re-reads `task.state` at its loop boundaries, so after `cancelTask` hits a
task whose synchronous execution is suspended in a step invocation, the loop
marks the next step `running` while the task is `cancelled`, and on exhausting
the plan overwrites `cancelled` with `completed`. -/
def c3Mid : SysState :=
  runEv buildBuiltins initSys
    [.delSync "a" "click x" (some "t") none none 0 1,
     .cancelEv "a" 2,
     .stepDone "a" (.ok .null) 3 4]

theorem c3_cancelled_task_overwritten_by_executor :
    (c3Mid.getTask "a").map TaskDelegation.state = some .cancelled ∧
    (c3Mid.getTask "a").map (fun t => t.steps.map TaskStep.status) =
      some [.completed, .running] ∧
    ((runEv buildBuiltins c3Mid [.stepDone "a" (.ok .null) 5 6]).getTask "a").map
      TaskDelegation.state = some .completed := by
  refine ⟨by decide, by decide, by decide⟩

/-! ### Association-list facts used by the invariant proofs -/

theorem aget_mem {α : Type} {l : List (String × α)} {k : String} {v : α}
    (h : aget l k = some v) : ∃ kv, kv ∈ l ∧ kv.2 = v := by
  induction l with
  | nil => cases h
  | cons kv t ih =>
    by_cases hk : kv.1 = k
    · refine ⟨kv, List.mem_cons_self .., ?_⟩
      simp [aget, hk] at h
      exact h
    · simp only [aget, beq_iff_eq, hk, if_false] at h
      obtain ⟨kv', hm, hv⟩ := ih h
      exact ⟨kv', List.mem_cons_of_mem _ hm, hv⟩

theorem aget_setval_ne {α : Type} (l : List (String × α)) {k k' : String} (v : α)
    (h : ¬ k' = k) :
    aget (l.map (fun kv => if kv.1 == k' then (k', v) else kv)) k = aget l k := by
  induction l with
  | nil => rfl
  | cons kv t ih =>
    by_cases hk : kv.1 = k' <;> by_cases hk2 : kv.1 = k <;>
      simp_all [aget, beq_iff_eq]

theorem aget_append_ne {α : Type} (l : List (String × α)) {k k' : String} (v : α)
    (h : ¬ k' = k) : aget (l ++ [(k', v)]) k = aget l k := by
  induction l with
  | nil => simp [aget, h, beq_iff_eq]
  | cons kv t ih =>
    by_cases hk : kv.1 = k <;> simp_all [aget, beq_iff_eq]

theorem aget_aset_ne {α : Type} (l : List (String × α)) {k k' : String} (v : α)
    (h : ¬ k' = k) : aget (aset l k' v) k = aget l k := by
  unfold aset
  split
  · exact aget_setval_ne l v h
  · exact aget_append_ne l v h

theorem aget_mapval_ne {α : Type} (l : List (String × α)) {k k' : String} (f : α → α)
    (h : ¬ k' = k) :
    aget (l.map (fun kv => if kv.1 == k' then (kv.1, f kv.2) else kv)) k = aget l k := by
  induction l with
  | nil => rfl
  | cons kv t ih =>
    by_cases hk : kv.1 = k' <;> by_cases hk2 : kv.1 = k <;>
      simp_all [aget, beq_iff_eq]

/-! ### C2: an async-delegated task is never started -/

/-- A task exactly as `delegate` creates it: `pending`, untimed, step pointer
at 0, every step `pending`. -/
def pristineB (t : TaskDelegation) : Bool :=
  t.state == .pending && t.startedAt == none && t.currentStepIndex == 0 &&
  t.completedAt == none && t.steps.all (fun sp => sp.status == .pending)

/-- Does the event create a task under this id (`randomUUID` freshness makes
this false for ids already registered)? -/
def evDelegatesId : Ev → String → Bool
  | .delAsync i _ _ _ _, id => i == id
  | .delSync i _ _ _ _ _ _, id => i == id
  | _, _ => false

/-- Is the event `cancelTask(id)`? -/
def evCancelsId : Ev → String → Bool
  | .cancelEv i _, id => i == id
  | _, _ => false

/-- The C2 induction invariant: the task registered under `id` is pristine
pending, no execution frame drives it, and no active slot holds it (the last
two hold for every async-delegated task from birth: only `delSync` creates
frames, only `dequeue` fills active slots). -/
def UntouchedAsync (s : SysState) (id : String) : Bool :=
  (match s.getTask id with
   | some t => pristineB t
   | none => false) &&
  s.execs.all (fun c => c.taskId != id) &&
  s.active.all (fun kv => kv.2 != id)

theorem untouchedAsync_iff {s : SysState} {id : String} :
    UntouchedAsync s id = true ↔
      (∃ t, s.getTask id = some t ∧ pristineB t = true) ∧
      (∀ c ∈ s.execs, ¬ c.taskId = id) ∧
      (∀ kv ∈ s.active, ¬ kv.2 = id) := by
  unfold UntouchedAsync
  cases h : s.getTask id <;>
    simp [h, List.all_eq_true, and_assoc]


/-- Prop form of the C2 invariant, threaded through the per-operation lemmas. -/
def Untouched (s : SysState) (id : String) : Prop :=
  (∃ t, s.getTask id = some t ∧ pristineB t = true) ∧
  (∀ c ∈ s.execs, ¬ c.taskId = id) ∧
  (∀ kv ∈ s.active, ¬ kv.2 = id)

theorem untouched_updTask {s : SysState} {id : String} (id' : String)
    (f : TaskDelegation → TaskDelegation) (h : ¬ id' = id)
    (hu : Untouched s id) : Untouched (updTask s id' f) id := by
  obtain ⟨⟨tk, hg, hp⟩, he, ha⟩ := hu
  refine ⟨⟨tk, ?_, hp⟩, he, ha⟩
  show aget (s.tasks.map (fun kv => if kv.1 == id' then (kv.1, f kv.2) else kv)) id = some tk
  rw [aget_mapval_ne _ _ h]
  exact hg

theorem untouched_enqueue {s : SysState} {id : String} (task : TaskDelegation)
    (h : ¬ task.id = id) (hu : Untouched s id) : Untouched (enqueueS s task) id := by
  obtain ⟨⟨tk, hg, hp⟩, he, ha⟩ := hu
  refine ⟨⟨tk, ?_, hp⟩, he, ha⟩
  show aget (aset s.tasks task.id task) id = some tk
  rw [aget_aset_ne _ _ h]
  exact hg

theorem untouched_completeActive (key : String) (t : Nat) {s : SysState} {id : String}
    (hu : Untouched s id) : Untouched (completeActiveS s key t) id := by
  obtain ⟨hg, he, ha⟩ := hu
  rcases hact : aget s.active key with _ | a
  · simp only [completeActiveS, hact]
    exact ⟨hg, he, ha⟩
  · simp only [completeActiveS, hact]
    have hne : ¬ a = id := by
      obtain ⟨kv, hm, hv⟩ := aget_mem hact
      exact hv ▸ ha kv hm
    obtain ⟨hg1, he1, ha1⟩ := untouched_updTask a
      (fun task => { task with state := .completed, completedAt := some t }) hne ⟨hg, he, ha⟩
    exact ⟨hg1, he1, fun kv hm => ha1 kv (List.mem_of_mem_filter hm)⟩

theorem untouched_execContinue {s : SysState} {id : String} {ctx : ExecCtx}
    {task : TaskDelegation} {i t3 : Nat} (h : ¬ ctx.taskId = id)
    (hu : Untouched s id) : Untouched (execContinue s ctx task i t3) id := by
  simp only [execContinue]
  split
  · split
    · obtain ⟨hg1, he1, ha1⟩ := untouched_updTask ctx.taskId
        (fun task => { task with state := .completed, completedAt := some t3 }) h hu
      exact ⟨hg1, fun c hm => he1 c (List.mem_of_mem_filter hm), ha1⟩
    · obtain ⟨hg1, he1, ha1⟩ := untouched_updTask ctx.taskId
        (fun task => setStep { task with currentStepIndex := i + 1 } (i + 1) .running) h hu
      refine ⟨hg1, ?_, ha1⟩
      intro c hm
      obtain ⟨c0, hc0, rfl⟩ := List.mem_map.mp hm
      have hc0id := he1 c0 hc0
      by_cases hcid : c0.taskId = ctx.taskId
      · simpa [hcid] using h
      · simpa [beq_iff_eq, hcid] using hc0id
  · obtain ⟨hg2, he2, ha2⟩ := untouched_completeActive (tabKey task.targetTabId) t3
      (untouched_updTask ctx.taskId
        (fun task => { task with state := .completed, completedAt := some t3 }) h hu)
    exact ⟨hg2, fun c hm => he2 c (List.mem_of_mem_filter hm), ha2⟩

theorem untouched_stepDone (reg : List TaskTemplate) (id' : String)
    (o : Except String JSVal) (t2 t3 : Nat) {s : SysState} {id : String}
    (hu : Untouched s id) : Untouched (stepDoneS reg s id' o t2 t3) id := by
  obtain ⟨hg, he, ha⟩ := hu
  rcases hf : s.execs.find? (fun c => c.taskId == id') with _ | ctx
  · simp only [stepDoneS, hf]
    exact ⟨hg, he, ha⟩
  · have hne : ¬ ctx.taskId = id := he ctx (List.mem_of_find?_eq_some hf)
    have hctxid : ctx.taskId = id' := by
      have := List.find?_some hf
      simpa [beq_iff_eq] using this
    have hidne : ¬ id' = id := fun hh => hne (hctxid ▸ hh ▸ rfl)
    rcases hgt : s.getTask id' with _ | task
    · simp only [stepDoneS, hf, hgt]
      exact ⟨hg, he, ha⟩
    · cases o with
      | ok v =>
        simp only [stepDoneS, hf, hgt]
        exact untouched_execContinue hne
          (untouched_updTask id' (fun task => setStep task ctx.idx .completed) hidne ⟨hg, he, ha⟩)
      | error e =>
        simp only [stepDoneS, hf, hgt]
        split
        · exact untouched_execContinue hne
            (untouched_updTask id' (fun task => setStep task ctx.idx .skipped) hidne ⟨hg, he, ha⟩)
        · obtain ⟨hg1, he1, ha1⟩ := untouched_updTask id'
            (fun task => { setStep task ctx.idx .failed with state := .failed, completedAt := some t2 })
            hidne ⟨hg, he, ha⟩
          exact ⟨hg1, fun c hm => he1 c (List.mem_of_mem_filter hm), ha1⟩

theorem untouched_cancel (id' : String) (t : Nat) {s : SysState} {id : String}
    (h : ¬ id' = id) (hu : Untouched s id) : Untouched (cancelS s id' t) id := by
  rcases hgt : s.getTask id' with _ | task
  · simp only [cancelS, hgt]
    exact hu
  · simp only [cancelS, hgt]
    obtain ⟨hg1, he1, ha1⟩ := untouched_updTask id'
      (fun task => { task with state := .cancelled, completedAt := some t }) h hu
    rcases hq : aget (updTask s id'
        (fun task => { task with state := .cancelled, completedAt := some t })).queues
        (tabKey task.targetTabId) with _ | q
    · simp only [hq]
      split
      · exact ⟨hg1, he1, fun kv hm => ha1 kv (List.mem_of_mem_filter hm)⟩
      · exact ⟨hg1, he1, ha1⟩
    · simp only [hq]
      split
      · exact ⟨hg1, he1, fun kv hm => ha1 kv (List.mem_of_mem_filter hm)⟩
      · exact ⟨hg1, he1, ha1⟩

theorem mkDelegatedTask_id {reg : List TaskTemplate} {id desc : String}
    {target forced : Option String} {tmo : Option Nat} {task : TaskDelegation}
    (h : mkDelegatedTask reg id desc target forced tmo = some task) : task.id = id := by
  simp only [mkDelegatedTask] at h
  obtain ⟨tm, _, rfl⟩ := Option.map_eq_some'.mp h
  rfl

theorem untouched_delAsync (reg : List TaskTemplate) (id' desc : String)
    (target forced : Option String) (tmo : Option Nat) {s : SysState} {id : String}
    (h : ¬ id' = id) (hu : Untouched s id) :
    Untouched (delAsyncS reg s id' desc target forced tmo) id := by
  rcases hmk : mkDelegatedTask reg id' desc target forced tmo with _ | task
  · simp only [delAsyncS, hmk]
    exact hu
  · simp only [delAsyncS, hmk]
    exact untouched_enqueue task (by rw [mkDelegatedTask_id hmk]; exact h) hu

theorem untouched_delSync (reg : List TaskTemplate) (id' desc : String)
    (target forced : Option String) (tmo : Option Nat) (t0 t1 : Nat)
    {s : SysState} {id : String} (h : ¬ id' = id) (hu : Untouched s id) :
    Untouched (delSyncS reg s id' desc target forced tmo t0 t1) id := by
  rcases hmk : mkDelegatedTask reg id' desc target forced tmo with _ | task
  · simp only [delSyncS, hmk]
    exact hu
  · simp only [delSyncS, hmk]
    have h1 := untouched_enqueue task (by rw [mkDelegatedTask_id hmk]; exact h) hu
    split
    · exact untouched_completeActive (tabKey task.targetTabId) t1
        (untouched_updTask id'
          (fun task =>
            { task with state := .completed, startedAt := some t0, completedAt := some t1 })
          h h1)
    · split
      · exact untouched_updTask id'
          (fun task =>
            { task with state := .completed, startedAt := some t0, completedAt := some t1 })
          h h1
      · obtain ⟨hg2, he2, ha2⟩ := untouched_updTask id'
          (fun task =>
            setStep { task with state := .running, startedAt := some t0, currentStepIndex := 0 }
              0 .running)
          h h1
        refine ⟨hg2, ?_, ha2⟩
        intro c hm
        rcases List.mem_append.mp hm with hm1 | hm2
        · exact he2 c hm1
        · rcases List.mem_singleton.mp hm2 with rfl
          exact h

theorem untouched_step (reg : List TaskTemplate) (e : Ev) {s : SysState} {id : String}
    (hp : ProdEv e = true)
    (hnd : evDelegatesId e id = false)
    (hnc : evCancelsId e id = false)
    (hu : Untouched s id) : Untouched (stepEv reg s e) id := by
  cases e with
  | delAsync i d tg fo tm =>
    exact untouched_delAsync reg i d tg fo tm (by simpa [evDelegatesId] using hnd) hu
  | delSync i d tg fo tm t0 t1 =>
    exact untouched_delSync reg i d tg fo tm t0 t1 (by simpa [evDelegatesId] using hnd) hu
  | stepDone i o t2 t3 => exact untouched_stepDone reg i o t2 t3 hu
  | cancelEv i t => exact untouched_cancel i t (by simpa [evCancelsId] using hnc) hu
  | dequeueEv k t => cases hp
  | completeActiveEv k t => cases hp

theorem untouched_run (reg : List TaskTemplate) {s : SysState} {tr : List Ev} {id : String}
    (hp : ∀ e ∈ tr, ProdEv e = true)
    (hnd : ∀ e ∈ tr, evDelegatesId e id = false)
    (hnc : ∀ e ∈ tr, evCancelsId e id = false)
    (hu : Untouched s id) : Untouched (runEv reg s tr) id := by
  induction tr generalizing s with
  | nil => exact hu
  | cons e tr ih =>
    exact ih (fun e' hh => hp e' (List.mem_cons_of_mem _ hh))
      (fun e' hh => hnd e' (List.mem_cons_of_mem _ hh))
      (fun e' hh => hnc e' (List.mem_cons_of_mem _ hh))
      (untouched_step reg e (hp e (List.mem_cons_self ..))
        (hnd e (List.mem_cons_self ..)) (hnc e (List.mem_cons_self ..)) hu)

/-- C2. A task delegated with `async: true` is enqueued but never started:
no production code path calls `TaskQueue.dequeue`, so an async-delegated task
— pristine (`pending`, `startedAt` null, `currentStepIndex` 0, no step
executed, which is exactly its observable state right after `delegate`
returns), driven by no execution frame and held by no active slot — remains
in that pristine `pending` state in every state reachable by further
production events (`delegate` calls under fresh UUIDs, executor resumptions,
cancellations of other tasks), as long as no `cancelTask(id)` occurs; polling
`getTaskStatus` never observes it `running` or `completed`. -/
theorem c2_async_task_stays_pending (reg : List TaskTemplate) (tr1 tr2 : List Ev)
    (id : String)
    (h0 : UntouchedAsync (runEv reg initSys tr1) id = true)
    (hprod : ∀ e ∈ tr2, ProdEv e = true)
    (hfresh : ∀ e ∈ tr2, evDelegatesId e id = false)
    (hnc : ∀ e ∈ tr2, evCancelsId e id = false) :
    ∃ t, (runEv reg initSys (tr1 ++ tr2)).getTask id = some t ∧
      t.state = .pending ∧ t.startedAt = none ∧ t.currentStepIndex = 0 ∧
      ∀ sp ∈ t.steps, sp.status = .pending := by
  have hsplit : runEv reg initSys (tr1 ++ tr2) = runEv reg (runEv reg initSys tr1) tr2 := by
    unfold runEv
    exact List.foldl_append ..
  rw [hsplit]
  have hu : Untouched (runEv reg initSys tr1) id := by
    obtain ⟨h1, h2, h3⟩ := untouchedAsync_iff.mp h0
    exact ⟨h1, h2, h3⟩
  obtain ⟨⟨t, hg, hp⟩, -, -⟩ := untouched_run reg hprod hfresh hnc hu
  refine ⟨t, hg, ?_⟩
  simp only [pristineB, Bool.and_eq_true, beq_iff_eq, List.all_eq_true] at hp
  refine ⟨hp.1.1.1.1, hp.1.1.1.2, hp.1.1.2, fun sp hm => ?_⟩
  have := hp.2 sp hm
  simpa [beq_iff_eq] using this

/-- Witness for C2: a concrete async delegation followed by production
activity (a synchronous delegation of another task, its step resumption, and
a cancellation of an unrelated id) after which the async task is still
pristine `pending`. -/
theorem c2_async_task_stays_pending_witness :
    ∃ t, (runEv buildBuiltins initSys
        ([Ev.delAsync "a" "zz" none (some "screenshot") none] ++
         [Ev.delSync "b" "zz" none (some "screenshot") none 0 1,
          Ev.stepDone "b" (.ok .null) 2 3, Ev.cancelEv "c" 4])).getTask "a" = some t ∧
      t.state = .pending ∧ t.startedAt = none ∧ t.currentStepIndex = 0 ∧
      ∀ sp ∈ t.steps, sp.status = .pending :=
  c2_async_task_stays_pending buildBuiltins
    [Ev.delAsync "a" "zz" none (some "screenshot") none]
    [Ev.delSync "b" "zz" none (some "screenshot") none 0 1,
     Ev.stepDone "b" (.ok .null) 2 3, Ev.cancelEv "c" 4] "a"
    (by decide) (by decide) (by decide) (by decide)

/-! ### Executor loop facts (for C4 and C5) -/

/-- Step `j` "passes" during execution: its invocation succeeds, or it fails
but the re-matched template flags it optional, so the loop continues. -/
def stepPasses (reg : List TaskTemplate) (description : String) (env : ExecEnv) (j : Nat) : Prop :=
  match env.outcome j with
  | .ok _ => True
  | .error _ => isOptionalStep reg description j = true

theorem execLoop_steps_pre (reg : List TaskTemplate) (env : ExecEnv) (desc : String)
    (deadline t0 total : Nat) :
    ∀ (rest done : List TaskStep) (i k cur : Nat) (tools : List String) (lastR : JSVal),
      done.reverse <+:
        (execLoop reg env desc deadline t0 total done rest i k cur tools lastR).steps := by
  intro rest
  induction rest with
  | nil =>
    intro done i k cur tools lastR
    simp [execLoop]
  | cons s rest' ih =>
    intro done i k cur tools lastR
    simp only [execLoop]
    split
    · exact ⟨s :: rest', rfl⟩
    · cases env.outcome i with
      | ok v =>
        refine List.IsPrefix.trans ?_ (ih _ _ _ _ _ _)
        simp
      | error e =>
        by_cases hopt : isOptionalStep reg desc i = true
        · simp only [hopt, if_true]
          refine List.IsPrefix.trans ?_ (ih _ _ _ _ _ _)
          simp
        · simp only [hopt, if_false]
          exact ⟨_, rfl⟩

theorem execLoop_tools_pre (reg : List TaskTemplate) (env : ExecEnv) (desc : String)
    (deadline t0 total : Nat) :
    ∀ (rest done : List TaskStep) (i k cur : Nat) (tools : List String) (lastR : JSVal),
      tools <+:
        (execLoop reg env desc deadline t0 total done rest i k cur tools lastR).result.tools_invoked := by
  intro rest
  induction rest with
  | nil =>
    intro done i k cur tools lastR
    simp [execLoop]
  | cons s rest' ih =>
    intro done i k cur tools lastR
    simp only [execLoop]
    split
    · exact List.prefix_refl _
    · cases env.outcome i with
      | ok v =>
        refine List.IsPrefix.trans ?_ (ih _ _ _ _ _ _)
        exact ⟨[s.toolName], rfl⟩
      | error e =>
        by_cases hopt : isOptionalStep reg desc i = true
        · simp only [hopt, if_true]
          refine List.IsPrefix.trans ?_ (ih _ _ _ _ _ _)
          exact ⟨[s.toolName], rfl⟩
        · simp only [hopt, if_false]
          exact List.prefix_refl _

theorem execLoop_completed_ge (reg : List TaskTemplate) (env : ExecEnv) (desc : String)
    (deadline t0 total : Nat) :
    ∀ (rest done : List TaskStep) (i k cur : Nat) (tools : List String) (lastR : JSVal),
      total = i + rest.length →
      i ≤ (execLoop reg env desc deadline t0 total done rest i k cur tools lastR).result.steps_completed := by
  intro rest
  induction rest with
  | nil =>
    intro done i k cur tools lastR htot
    simp [execLoop, htot]
  | cons s rest' ih =>
    intro done i k cur tools lastR htot
    simp only [execLoop]
    split
    · exact Nat.le_refl i
    · cases env.outcome i with
      | ok v =>
        refine Nat.le_of_succ_le (ih _ _ _ _ _ _ ?_)
        simp only [List.length_cons] at htot
        omega
      | error e =>
        by_cases hopt : isOptionalStep reg desc i = true
        · simp only [hopt, if_true]
          refine Nat.le_of_succ_le (ih _ _ _ _ _ _ ?_)
          simp only [List.length_cons] at htot
          omega
        · simp only [hopt, if_false]
          exact Nat.le_refl i

theorem execLoop_reach (reg : List TaskTemplate) (env : ExecEnv) (desc : String)
    (deadline t0 total : Nat) :
    ∀ (n : Nat) (rest done : List TaskStep) (i k cur : Nat) (tools : List String) (lastR : JSVal),
      (∀ m, m < n → env.clock (k + 3 * m) < deadline) →
      (∀ m, m < n → stepPasses reg desc env (i + m)) →
      n ≤ rest.length →
      ∃ done' cur' lastR',
        execLoop reg env desc deadline t0 total done rest i k cur tools lastR =
          execLoop reg env desc deadline t0 total done' (rest.drop n) (i + n) (k + 3 * n)
            cur' (tools ++ (rest.take n).map TaskStep.toolName) lastR' ∧
        done'.length = done.length + n := by
  intro n
  induction n with
  | zero =>
    intro rest done i k cur tools lastR _ _ _
    exact ⟨done, cur, lastR, by simp, by simp⟩
  | succ n ih =>
    intro rest done i k cur tools lastR hb ho hlen
    match rest with
    | [] => simp at hlen
    | s :: rest' =>
      have hbi : env.clock k < deadline := by
        have := hb 0 (Nat.succ_pos n)
        simpa using this
      have hpass : stepPasses reg desc env i := by
        have := ho 0 (Nat.succ_pos n)
        simpa using this
      simp only [execLoop, if_neg (Nat.not_le.mpr hbi)]
      cases hoc : env.outcome i with
      | ok v =>
        obtain ⟨done', cur', lastR', heq, hlen'⟩ :=
          ih rest'
            ({ s with status := .completed, result := some (.ok v),
                      duration_ms := some ((env.clock (k + 2) : Int) - (env.clock (k + 1) : Int)) } :: done)
            (i + 1) (k + 3) i (tools ++ [s.toolName]) v
            (fun m hm => by
              have := hb (m + 1) (Nat.succ_lt_succ hm)
              have harith : k + 3 * (m + 1) = k + 3 + 3 * m := by omega
              rwa [harith] at this)
            (fun m hm => by
              have := ho (m + 1) (Nat.succ_lt_succ hm)
              have harith : i + (m + 1) = i + 1 + m := by omega
              rwa [harith] at this)
            (by simpa using Nat.lt_succ_iff.mp (Nat.lt_of_lt_of_le (Nat.lt_succ_self n)
              (by simpa using hlen)))
        refine ⟨done', cur', lastR', ?_, by
          simp only [List.length_cons] at hlen'
          omega⟩
        dsimp only
        rw [heq]
        have h1 : i + 1 + n = i + (n + 1) := by omega
        have h2 : k + 3 + 3 * n = k + 3 * (n + 1) := by omega
        have h3 : (tools ++ [s.toolName]) ++ (rest'.take n).map TaskStep.toolName =
            tools ++ ((s :: rest').take (n + 1)).map TaskStep.toolName := by
          simp
        rw [h1, h2, h3]
        rfl
      | error e =>
        have hop : isOptionalStep reg desc i = true := by
          have := hpass
          simp only [stepPasses, hoc] at this
          exact this
        simp only [hop, if_true]
        obtain ⟨done', cur', lastR', heq, hlen'⟩ :=
          ih rest'
            ({ s with status := .skipped, result := some (.error e),
                      duration_ms := some ((env.clock (k + 2) : Int) - (t0 : Int)) } :: done)
            (i + 1) (k + 3) i (tools ++ [s.toolName]) lastR
            (fun m hm => by
              have := hb (m + 1) (Nat.succ_lt_succ hm)
              have harith : k + 3 * (m + 1) = k + 3 + 3 * m := by omega
              rwa [harith] at this)
            (fun m hm => by
              have := ho (m + 1) (Nat.succ_lt_succ hm)
              have harith : i + (m + 1) = i + 1 + m := by omega
              rwa [harith] at this)
            (by simpa using Nat.lt_succ_iff.mp (Nat.lt_of_lt_of_le (Nat.lt_succ_self n)
              (by simpa using hlen)))
        refine ⟨done', cur', lastR', ?_, by
          simp only [List.length_cons] at hlen'
          omega⟩
        dsimp only
        rw [heq]
        have h1 : i + 1 + n = i + (n + 1) := by omega
        have h2 : k + 3 + 3 * n = k + 3 * (n + 1) := by omega
        have h3 : (tools ++ [s.toolName]) ++ (rest'.take n).map TaskStep.toolName =
            tools ++ ((s :: rest').take (n + 1)).map TaskStep.toolName := by
          simp
        rw [h1, h2, h3]
        rfl

theorem isPrefix_get? {α : Type} {l₁ l₂ : List α} (h : l₁ <+: l₂) {i : Nat}
    (hi : i < l₁.length) : l₂[i]? = l₁[i]? := by
  obtain ⟨t, rfl⟩ := h
  exact List.getElem?_append_left hi

/-- C5. For every synchronously executed task, the executor computes the
deadline once at task start as `startedAt + timeout_ms` (`startedAt` being the
executor's first `Date.now()` reading, `env.clock 0`), and if at the boundary
before step `i` (the executor's `Date.now()` reading `env.clock (1 + 3·i)`)
the current time is at or past that deadline — all earlier boundaries having
been on time and all earlier steps having passed — it stops and returns a
`TaskResult` with status `partial`, `error.code = "TIMEOUT"`,
`steps_completed = i`, `error.failedStep = i` (the step that was about to
run), and `tools_invoked` preserving the tools of the steps already done. -/
theorem c5_timeout_partial (reg : List TaskTemplate) (env : ExecEnv)
    (task : TaskDelegation) (i : Nat)
    (hb : ∀ m, m < i → env.clock (1 + 3 * m) < env.clock 0 + task.timeout_ms)
    (ho : ∀ m, m < i → stepPasses reg task.description env m)
    (ht : env.clock (1 + 3 * i) ≥ env.clock 0 + task.timeout_ms)
    (hi : i < task.steps.length) :
    (executeTask reg env task).1.status = .partialResult ∧
    (executeTask reg env task).1.error =
      some { code := "TIMEOUT", message := "Task timed out", recoverable := false,
             failedStep := some i } ∧
    (executeTask reg env task).1.steps_completed = i ∧
    (executeTask reg env task).1.steps_total = task.steps.length ∧
    (executeTask reg env task).1.tools_invoked =
      (task.steps.take i).map TaskStep.toolName := by
  obtain ⟨done', cur', lastR', heq, hlen'⟩ :=
    execLoop_reach reg env task.description (env.clock 0 + task.timeout_ms) (env.clock 0)
      task.steps.length i task.steps [] 0 1 task.currentStepIndex [] .null
      (fun m hm => hb m hm)
      (fun m hm => by simpa using ho m hm)
      (le_of_lt hi)
  simp only [executeTask]
  rw [heq]
  simp only [Nat.zero_add, List.nil_append]
  rw [List.drop_eq_getElem_cons hi]
  simp only [execLoop]
  rw [if_pos ht]
  exact ⟨rfl, rfl, rfl, rfl, rfl⟩

def c5Env : ExecEnv := { clock := fun k => 3 * k, outcome := fun _ => .ok .null }

def c5Task : TaskDelegation :=
  { id := "w", description := "zz", state := .pending, targetTabId := none,
    steps :=
      [{ toolName := "tool_a", server := .cometBrowser, params := [], result := none,
         status := .pending, duration_ms := none },
       { toolName := "tool_b", server := .cometBrowser, params := [], result := none,
         status := .pending, duration_ms := none }],
    currentStepIndex := 0, timeout_ms := 10, startedAt := none, completedAt := none }

/-- Witness for C5: a two-step task with a 10 ms budget under a clock that has
passed the deadline at the boundary before step 1. -/
theorem c5_timeout_partial_witness :
    (executeTask [] c5Env c5Task).1.status = .partialResult ∧
    (executeTask [] c5Env c5Task).1.error =
      some { code := "TIMEOUT", message := "Task timed out", recoverable := false,
             failedStep := some 1 } ∧
    (executeTask [] c5Env c5Task).1.steps_completed = 1 ∧
    (executeTask [] c5Env c5Task).1.steps_total = c5Task.steps.length ∧
    (executeTask [] c5Env c5Task).1.tools_invoked =
      (c5Task.steps.take 1).map TaskStep.toolName :=
  c5_timeout_partial [] c5Env c5Task 1
    (fun m hm => by
      have hm0 : m = 0 := by omega
      subst hm0
      decide)
    (fun m hm => by simp [stepPasses, c5Env])
    (by decide) (by decide)

/-- C4 (amended). On a step failure the executor derives "is this step
optional" by re-matching the task's description against the registry
(`isOptionalStep`), not from the plan that was actually built. Provided that
re-match yields a template whose step `i` is flagged optional (which, for a
task built from a registry match, is the template the plan came from), a
failing step `i` is marked `skipped`, its tool name is appended to
`tools_invoked` at position `i`, and execution continues with step `i + 1`
(the result accounts for at least `i + 1` steps). In particular a two-step
plan whose first step succeeds and whose second, optional-per-rematch step
throws returns status `success` with both tool names in `tools_invoked` and
step 2's status `skipped`. When the forced-template path builds the plan from
a template the description does not match, the optional flag of that template
is ignored (see the counterexample). -/
theorem c4_optional_step_skip :
    (∀ (reg : List TaskTemplate) (env : ExecEnv) (task : TaskDelegation) (i : Nat) (e : String),
      (∀ m, m ≤ i → env.clock (1 + 3 * m) < env.clock 0 + task.timeout_ms) →
      (∀ m, m < i → stepPasses reg task.description env m) →
      env.outcome i = .error e →
      isOptionalStep reg task.description i = true →
      ∀ hi : i < task.steps.length,
      ∃ st, (executeTask reg env task).2.steps[i]? = some st ∧
        st.status = .skipped ∧ st.toolName = task.steps[i].toolName ∧
        (executeTask reg env task).1.tools_invoked[i]? = some task.steps[i].toolName ∧
        i + 1 ≤ (executeTask reg env task).1.steps_completed) ∧
    (∀ (reg : List TaskTemplate) (env : ExecEnv) (task : TaskDelegation)
       (s0 s1 : TaskStep) (v : JSVal) (e : String),
      task.steps = [s0, s1] →
      env.outcome 0 = .ok v →
      env.outcome 1 = .error e →
      isOptionalStep reg task.description 1 = true →
      env.clock 1 < env.clock 0 + task.timeout_ms →
      env.clock 4 < env.clock 0 + task.timeout_ms →
      (executeTask reg env task).1.status = .success ∧
      (executeTask reg env task).1.tools_invoked = [s0.toolName, s1.toolName] ∧
      (executeTask reg env task).2.steps.map TaskStep.status = [.completed, .skipped]) := by
  constructor
  · intro reg env task i e hb ho hoc hop hi
    obtain ⟨done', cur', lastR', heq, hlen'⟩ :=
      execLoop_reach reg env task.description (env.clock 0 + task.timeout_ms) (env.clock 0)
        task.steps.length i task.steps [] 0 1 task.currentStepIndex [] .null
        (fun m hm => hb m (le_of_lt hm))
        (fun m hm => by simpa using ho m hm)
        (le_of_lt hi)
    simp only [executeTask]
    rw [heq]
    simp only [Nat.zero_add, List.nil_append]
    rw [List.drop_eq_getElem_cons hi]
    simp only [execLoop]
    rw [if_neg (Nat.not_le.mpr (hb i (Nat.le_refl i))), hoc]
    dsimp only
    rw [if_pos hop]
    have hdl : done'.length = i := by simpa using hlen'
    have htl : ((task.steps.take i).map TaskStep.toolName).length = i := by
      simp [List.length_take]
      omega
    refine ⟨{ task.steps[i] with status := .skipped, result := some (.error e), duration_ms := some ((env.clock (1 + 3 * i + 2) : Int) - (env.clock 0 : Int)) },
      ?_, rfl, rfl, ?_, ?_⟩
    · have hpre := execLoop_steps_pre reg env task.description
        (env.clock 0 + task.timeout_ms) (env.clock 0) task.steps.length
        (task.steps.drop (i + 1))
        ({ task.steps[i] with status := .skipped, result := some (.error e), duration_ms := some ((env.clock (1 + 3 * i + 2) : Int) - (env.clock 0 : Int)) } :: done')
        (i + 1) (1 + 3 * i + 3) i
        ((task.steps.take i).map TaskStep.toolName ++ [task.steps[i].toolName]) lastR'
      have hidx : i < (({ task.steps[i] with status := .skipped, result := some (.error e), duration_ms := some ((env.clock (1 + 3 * i + 2) : Int) - (env.clock 0 : Int)) } :: done').reverse).length := by
        simp [hdl]
      rw [isPrefix_get? hpre hidx]
      simp only [List.reverse_cons]
      have := List.getElem?_concat_length done'.reverse
        ({ task.steps[i] with status := .skipped, result := some (.error e), duration_ms := some ((env.clock (1 + 3 * i + 2) : Int) - (env.clock 0 : Int)) })
      rw [show done'.reverse.length = i by simpa using hdl] at this
      exact this
    · have hpre := execLoop_tools_pre reg env task.description
        (env.clock 0 + task.timeout_ms) (env.clock 0) task.steps.length
        (task.steps.drop (i + 1))
        ({ task.steps[i] with status := .skipped, result := some (.error e), duration_ms := some ((env.clock (1 + 3 * i + 2) : Int) - (env.clock 0 : Int)) } :: done')
        (i + 1) (1 + 3 * i + 3) i
        ((task.steps.take i).map TaskStep.toolName ++ [task.steps[i].toolName]) lastR'
      have hidx : i < ((task.steps.take i).map TaskStep.toolName ++
          [task.steps[i].toolName]).length := by
        rw [List.length_append, htl]
        simp
      rw [isPrefix_get? hpre hidx]
      have := List.getElem?_concat_length ((task.steps.take i).map TaskStep.toolName)
        task.steps[i].toolName
      rw [htl] at this
      exact this
    · have := execLoop_completed_ge reg env task.description
        (env.clock 0 + task.timeout_ms) (env.clock 0) task.steps.length
        (task.steps.drop (i + 1))
        ({ task.steps[i] with status := .skipped, result := some (.error e), duration_ms := some ((env.clock (1 + 3 * i + 2) : Int) - (env.clock 0 : Int)) } :: done')
        (i + 1) (1 + 3 * i + 3) i
        ((task.steps.take i).map TaskStep.toolName ++ [task.steps[i].toolName]) lastR'
        (by simp [List.length_drop]; omega)
      exact this
  · intro reg env task s0 s1 v e hsteps h0 h1 hop hb0 hb1
    simp only [executeTask, hsteps, execLoop]
    rw [if_neg (Nat.not_le.mpr hb0), h0]
    dsimp only
    rw [show (1 + 3 : Nat) = 4 from rfl]
    rw [if_neg (Nat.not_le.mpr hb1), h1]
    dsimp only
    rw [if_pos hop]
    simp only [execLoop]
    simp

def c4Reg : List TaskTemplate :=
  [{ name := "two", description := "two-step plan", triggerPatterns := ["zz"],
     defaultParams := [],
     steps :=
       [step "tool_a" .cometBrowser "first" [] false,
        step "tool_b" .cometBrowser "second" [] true] }]

def c4Env : ExecEnv :=
  { clock := fun k => k, outcome := fun i => if i = 1 then .error "boom" else .ok .null }

def c4Task : TaskDelegation :=
  { id := "w", description := "zz", state := .pending, targetTabId := none,
    steps :=
      [{ toolName := "tool_a", server := .cometBrowser, params := [], result := none,
         status := .pending, duration_ms := none },
       { toolName := "tool_b", server := .cometBrowser, params := [], result := none,
         status := .pending, duration_ms := none }],
    currentStepIndex := 0, timeout_ms := 60000, startedAt := none, completedAt := none }

/-- Witness for C4 (amended): a registry whose matched template flags step 1
optional; executing the two-step task with step 0 succeeding and step 1
throwing skips step 1, records both tools and returns `success`. -/
theorem c4_optional_step_skip_witness :
    (∃ st, (executeTask c4Reg c4Env c4Task).2.steps[1]? = some st ∧
      st.status = .skipped ∧ st.toolName = c4Task.steps[1].toolName ∧
      (executeTask c4Reg c4Env c4Task).1.tools_invoked[1]? = some c4Task.steps[1].toolName ∧
      1 + 1 ≤ (executeTask c4Reg c4Env c4Task).1.steps_completed) ∧
    ((executeTask c4Reg c4Env c4Task).1.status = .success ∧
      (executeTask c4Reg c4Env c4Task).1.tools_invoked =
        [(c4Task.steps[0]).toolName, (c4Task.steps[1]).toolName] ∧
      (executeTask c4Reg c4Env c4Task).2.steps.map TaskStep.status =
        [.completed, .skipped]) := by
  refine ⟨c4_optional_step_skip.1 c4Reg c4Env c4Task 1 "boom" ?_ ?_ (by decide) (by decide)
    (by decide), ?_⟩
  · intro m hm
    have hcases : m = 0 ∨ m = 1 := by omega
    rcases hcases with rfl | rfl <;> decide
  · intro m hm
    have h0 : m = 0 := by omega
    subst h0
    simp [stepPasses, c4Env]
  · have h2 := c4_optional_step_skip.2 c4Reg c4Env c4Task
      (c4Task.steps[0]) (c4Task.steps[1]) .null "boom"
      (by decide) (by decide) (by decide) (by decide) (by decide) (by decide)
    exact h2

def c4CtrEnv : ExecEnv :=
  { clock := fun k => k, outcome := fun i => if i = 2 then .error "boom" else .ok .null }

/-- Counterexample to C4 as stated: delegating `"zzz qqq"` with the forced
template `shortwave-saved-prompt` (whose step 2, `comet_find_elements`, is
flagged optional) and letting step 2 throw does not skip it — the executor
re-matches the description, `"zzz qqq"` matches no template, so the optional
flag of the forced template is ignored and the task fails with
`STEP_FAILED` at step 2. -/
theorem c4_optional_step_counterexample :
    ((buildBuiltins.find? (fun t => t.name == "shortwave-saved-prompt")).map
      (fun t => (t.steps.get? 2).map TaskTemplateStep.optional)) = some (some true) ∧
    registryMatch buildBuiltins "zzz qqq" = none ∧
    (delegate buildBuiltins ⟨[], []⟩ c4CtrEnv "t1" "zzz qqq"
      ⟨none, none, false, some "shortwave-saved-prompt"⟩).1.status = .failure ∧
    ((delegate buildBuiltins ⟨[], []⟩ c4CtrEnv "t1" "zzz qqq"
      ⟨none, none, false, some "shortwave-saved-prompt"⟩).1.error).map TaskError.code =
      some "STEP_FAILED" ∧
    ((delegate buildBuiltins ⟨[], []⟩ c4CtrEnv "t1" "zzz qqq"
      ⟨none, none, false, some "shortwave-saved-prompt"⟩).1.error).map TaskError.failedStep =
      some (some 2) ∧
    ((delegate buildBuiltins ⟨[], []⟩ c4CtrEnv "t1" "zzz qqq"
      ⟨none, none, false, some "shortwave-saved-prompt"⟩).2.map
        (fun t => t.steps.map TaskStep.status)) =
      some [.completed, .completed, .failed, .pending, .pending, .pending, .pending] := by
  refine ⟨by decide, by decide, by decide, by decide, by decide, by decide⟩

/-! ### C6: the no-match enrichment fallback -/

theorem overlapFold_eq (descWords : List String) :
    ∀ (ws : List String) (acc : Nat × Nat),
      ws.foldl (fun (acc : Nat × Nat) w =>
        if "https?".toList.isPrefixOf w.toList then acc
        else (acc.1 + (if descWords.contains w then 1 else 0), acc.2 + 1)) acc =
      (acc.1 + (ws.filter (fun w => !("https?".toList.isPrefixOf w.toList))).countP
          (fun w => descWords.contains w),
       acc.2 + (ws.filter (fun w => !("https?".toList.isPrefixOf w.toList))).length) := by
  intro ws
  induction ws with
  | nil => intro acc; simp
  | cons w ws ih =>
    intro acc
    rw [List.foldl_cons, List.filter_cons]
    by_cases hw : "https?".toList.isPrefixOf w.toList = true
    · have hf : ¬((!"https?".toList.isPrefixOf w.toList) = true) := by rw [hw]; simp
      rw [if_pos hw, ih, if_neg hf]
    · have hx : "https?".toList.isPrefixOf w.toList = false := Bool.eq_false_iff.mpr hw
      have hf : (!"https?".toList.isPrefixOf w.toList) = true := by rw [hx]; rfl
      rw [if_neg hw, ih, if_pos hf, List.countP_cons, List.length_cons]
      simp only [Prod.mk.injEq]
      omega

/-- The code's `keywordOverlap` computes exactly the spec's formula: hits over
the plain-word trigger vocabulary, `0` for a template without one. -/
theorem keywordOverlap_eq_specConfidence (description : String) (t : TaskTemplate) :
    keywordOverlap description t = specConfidence description t := by
  have h1 : t.triggerPatterns.foldl (fun (acc : Nat × Nat) pattern =>
      (jsSplitWs (jsToLower pattern)).foldl (fun (acc : Nat × Nat) w =>
        if "https?".toList.isPrefixOf w.toList then acc
        else (acc.1 + (if (jsSplitWs (jsToLower description)).contains w then 1 else 0),
              acc.2 + 1)) acc) ((0 : Nat), (0 : Nat)) =
      ((t.triggerPatterns.map (fun p => jsSplitWs (jsToLower p))).flatten).foldl
        (fun (acc : Nat × Nat) w =>
          if "https?".toList.isPrefixOf w.toList then acc
          else (acc.1 + (if (jsSplitWs (jsToLower description)).contains w then 1 else 0),
                acc.2 + 1)) ((0 : Nat), (0 : Nat)) := by
    rw [List.foldl_flatten, List.foldl_map]
  simp only [keywordOverlap, specConfidence, plainTriggerWords]
  rw [h1, overlapFold_eq]
  simp

def c6Env : ExecEnv := ⟨fun _ => 0, fun _ => .ok .null⟩

/-- C6. When no template is forced and the registry match returns `null`,
`delegate` returns a failure `TaskResult` with error code
`NO_TEMPLATE_MATCH`, `recoverable = true`, no failed step, no task created,
and an enrichment payload with `matched = false` listing every registered
template with the spec's confidence: the fraction of the template's
plain-word trigger vocabulary (whitespace-split trigger words not starting
with the `https?` scheme fragment) present in the description's words, and
`0` for a template whose vocabulary is empty. -/
theorem c6_no_match_enrichment_fallback (reg : List TaskTemplate)
    (oenv : OrchestratorEnv) (env : ExecEnv) (id description : String)
    (options : DelegateOptions)
    (hforced : options.template = none)
    (hmatch : registryMatch reg description = none) :
    (delegate reg oenv env id description options).1.status = .failure ∧
    (delegate reg oenv env id description options).1.error =
      some { code := "NO_TEMPLATE_MATCH",
             message := "No template matched the description. See payload for enrichment data.",
             recoverable := true, failedStep := none } ∧
    (delegate reg oenv env id description options).1.payload =
      .enrich { matched := false, description := description,
                available_templates := reg.map (fun t =>
                  { name := t.name, description := t.description,
                    confidence := specConfidence description t }),
                tool_inventory := oenv.inventory.map (fun t =>
                  (t.name, t.category, serverNameStr t.server)),
                server_health := oenv.serverHealth } ∧
    (delegate reg oenv env id description options).2 = none ∧
    (∀ t ∈ reg, plainTriggerWords t = [] → keywordOverlap description t = 0) := by
  simp only [delegate, hforced, hmatch, buildEnrichmentFallback,
    keywordOverlap_eq_specConfidence]
  refine ⟨trivial, trivial, trivial, trivial, ?_⟩
  intro t _ hplain
  simp [specConfidence, hplain]

def c6Tpl : TaskTemplate :=
  { name := "url-only", description := "no plain trigger words",
    triggerPatterns := ["https?://x"], defaultParams := [], steps := [] }

/-- Witness for C6: a registry with one template whose only trigger is a
URL-scheme regex fragment; the description matches nothing, and the fallback
lists that template with confidence 0. -/
theorem c6_no_match_enrichment_fallback_witness :
    (delegate [c6Tpl] ⟨[], []⟩ c6Env "t" "qq zz" ⟨none, none, false, none⟩).1.status = .failure ∧
    (delegate [c6Tpl] ⟨[], []⟩ c6Env "t" "qq zz" ⟨none, none, false, none⟩).1.error =
      some { code := "NO_TEMPLATE_MATCH",
             message := "No template matched the description. See payload for enrichment data.",
             recoverable := true, failedStep := none } ∧
    (delegate [c6Tpl] ⟨[], []⟩ c6Env "t" "qq zz" ⟨none, none, false, none⟩).1.payload =
      .enrich { matched := false, description := "qq zz",
                available_templates := [⟨"url-only", "no plain trigger words", 0⟩],
                tool_inventory := [], server_health := [] } ∧
    (delegate [c6Tpl] ⟨[], []⟩ c6Env "t" "qq zz" ⟨none, none, false, none⟩).2 = none ∧
    keywordOverlap "qq zz" c6Tpl = 0 := by
  have h := c6_no_match_enrichment_fallback [c6Tpl] ⟨[], []⟩ c6Env "t" "qq zz"
    ⟨none, none, false, none⟩ rfl (by decide)
  exact ⟨h.1, h.2.1, by decide, h.2.2.2.1, h.2.2.2.2 c6Tpl (by decide) (by decide)⟩

/-! ### C7: the navigate-family preconditions -/

theorem registryMatchGo_matches (lower : String) (hasUrl : Bool) :
    ∀ (ts : List TaskTemplate) (t : TaskTemplate),
      registryMatchGo lower hasUrl ts = some t → matchesTemplate t lower hasUrl = true := by
  intro ts
  induction ts with
  | nil => intro t h; simp [registryMatchGo] at h
  | cons u ts ih =>
    intro t h
    cases hu : matchesTemplate u lower hasUrl
    · rw [registryMatchGo, hu] at h
      simp only [Bool.false_eq_true, if_false] at h
      exact ih t h
    · rw [registryMatchGo, hu] at h
      simp only [if_true, Option.some.injEq] at h
      rw [← h]
      exact hu

/-- C7 (amended). Whenever `match` returns a template named
`navigate-extract`, the description contains a URL and one of the extraction
verbs; but a template named `navigate` can win without a URL — in that case
it matched by plain trigger-pattern inclusion (`go to` / `open` /
`navigate to` for the builtin), not by a URL precondition. -/
theorem c7_navigate_family_preconditions (reg : List TaskTemplate)
    (description : String) (t : TaskTemplate)
    (hm : registryMatch reg description = some t) :
    (t.name = "navigate-extract" →
      urlReTest description = true ∧
      extractionWords.any (fun w => strIncludes (jsToLower description) w) = true) ∧
    (t.name = "navigate" → urlReTest description = false →
      t.triggerPatterns.any (fun p => strIncludes (jsToLower description) p) = true) := by
  have hmt : matchesTemplate t (jsToLower description) (urlReTest description) = true :=
    registryMatchGo_matches _ _ reg t hm
  constructor
  · intro hname
    simp only [matchesTemplate, hname] at hmt
    cases hurl : urlReTest description
    · rw [hurl] at hmt
      simp at hmt
    · rw [hurl] at hmt
      simp at hmt
      exact ⟨rfl, List.any_eq_true.mpr hmt⟩
  · intro hname hurl
    simp only [matchesTemplate, hname, hurl] at hmt
    simp at hmt
    exact List.any_eq_true.mpr hmt

def c7Desc : String := "go to https://x.com and extract data"

/-- Witness for C7: `navigate-extract` wins on a description that has both a
URL and the verb `extract`, and the theorem recovers both preconditions. -/
theorem c7_navigate_family_preconditions_witness :
    urlReTest c7Desc = true ∧
    extractionWords.any (fun w => strIncludes (jsToLower c7Desc) w) = true := by
  have h := c7_navigate_family_preconditions buildBuiltins c7Desc
    (buildBuiltins.get ⟨3, by decide⟩) (by decide)
  exact h.1 (by decide)

/-- Counterexample to C7 as stated: `go to example` contains no URL, yet
`match` returns the `navigate` template (the code deliberately lets plain
`navigate` win on its trigger words alone when no URL is present). -/
theorem c7_navigate_without_url_counterexample :
    (registryMatch buildBuiltins "go to example").map (fun t => t.name) = some "navigate" ∧
    urlReTest "go to example" = false := by decide

/-! ### C8: first match wins -/

theorem registryMatchGo_eq_find (lower : String) (hasUrl : Bool) :
    ∀ ts : List TaskTemplate,
      registryMatchGo lower hasUrl ts = ts.find? (fun t => matchesTemplate t lower hasUrl) := by
  intro ts
  induction ts with
  | nil => rfl
  | cons u ts ih =>
    cases hu : matchesTemplate u lower hasUrl
    · rw [registryMatchGo, hu, List.find?_cons_of_neg, ih]
      · simp
      · simp [hu]
    · rw [registryMatchGo, hu, List.find?_cons_of_pos]
      · simp
      · exact hu

/-- C8. `match` is exactly the first-match scan of the registration order:
it equals `List.find?` of the per-template trigger rule; when the registered
names are duplicate-free (as `register` enforces) and an earlier template
and a later template both match, the returned winner is never the later one
(and is not `null`); and when no template matches it returns `null`. -/
theorem c8_first_match_wins (reg : List TaskTemplate) (description : String) :
    registryMatch reg description =
      reg.find? (fun t => matchesTemplate t (jsToLower description) (urlReTest description)) ∧
    (∀ (l1 l2 l3 : List TaskTemplate) (ti tj : TaskTemplate),
      reg = l1 ++ (ti :: l2) ++ (tj :: l3) →
      (reg.map (fun t => t.name)).Nodup →
      matchesTemplate ti (jsToLower description) (urlReTest description) = true →
      matchesTemplate tj (jsToLower description) (urlReTest description) = true →
      ∃ u, registryMatch reg description = some u ∧ u.name ≠ tj.name) ∧
    ((∀ t ∈ reg, matchesTemplate t (jsToLower description) (urlReTest description) = false) →
      registryMatch reg description = none) := by
  have hbase : ∀ l : List TaskTemplate, registryMatch l description =
      l.find? (fun t => matchesTemplate t (jsToLower description) (urlReTest description)) := by
    intro l
    simp only [registryMatch]
    exact registryMatchGo_eq_find _ _ l
  refine ⟨hbase reg, ?_, ?_⟩
  · intro l1 l2 l3 ti tj hreg hnodup hti htj
    have hassoc : reg = l1 ++ ((ti :: l2) ++ (tj :: l3)) := by rw [hreg, List.append_assoc]
    have hmap := hnodup
    rw [hassoc, List.map_append, List.map_append, List.map_cons, List.map_cons,
      List.nodup_append] at hmap
    obtain ⟨hn1, hn2, hdisj⟩ := hmap
    rw [List.nodup_append] at hn2
    obtain ⟨hn21, hn22, hdisj2⟩ := hn2
    have hA : ti.name ≠ tj.name := by
      intro he
      exact hdisj2 (List.mem_cons_self _ _) (by rw [he]; exact List.mem_cons_self _ _)
    have hB : ∀ u ∈ l1, u.name ≠ tj.name := by
      intro u hu he
      refine hdisj (List.mem_map_of_mem _ hu) ?_
      rw [he]
      simp
    have hfind : registryMatch reg description =
        (l1.find? (fun t => matchesTemplate t (jsToLower description) (urlReTest description))).or
          (some ti) := by
      have hsome : List.find? (fun t => matchesTemplate t (jsToLower description)
          (urlReTest description)) (ti :: l2) = some ti := List.find?_cons_of_pos l2 hti
      rw [hbase reg, hassoc, List.find?_append, List.find?_append, hsome]
      cases l1.find? (fun t => matchesTemplate t (jsToLower description) (urlReTest description)) <;>
        rfl
    cases hl1 : l1.find? (fun t => matchesTemplate t (jsToLower description) (urlReTest description))
    · rw [hl1] at hfind
      exact ⟨ti, by simpa using hfind, hA⟩
    · rw [hl1] at hfind
      refine ⟨_, by simpa using hfind, hB _ (List.mem_of_find?_eq_some hl1)⟩
  · intro hnone
    rw [hbase reg]
    exact List.find?_eq_none.mpr (fun x hx => by simp [hnone x hx])

def c8A : TaskTemplate :=
  { name := "first", description := "earlier registered", triggerPatterns := ["zz"],
    defaultParams := [], steps := [] }

def c8B : TaskTemplate :=
  { name := "second", description := "later registered, same trigger", triggerPatterns := ["zz"],
    defaultParams := [], steps := [] }

/-- Witness for C8: two templates sharing the trigger word `zz`; the scan
equals `find?` and the earlier-registered template shadows the later one. -/
theorem c8_first_match_wins_witness :
    registryMatch [c8A, c8B] "zz please" =
      [c8A, c8B].find? (fun t => matchesTemplate t (jsToLower "zz please") (urlReTest "zz please")) ∧
    (∃ u, registryMatch [c8A, c8B] "zz please" = some u ∧ u.name ≠ c8B.name) := by
  have h := c8_first_match_wins [c8A, c8B] "zz please"
  exact ⟨h.1, h.2.1 [] [] [] c8A c8B rfl (by decide) (by decide) (by decide)⟩

/-! ### C9: `findTool` resolution after `initialize` -/

theorem findTool_qualified_sound (inv : List ToolDescriptor) (name : String)
    (t : ToolDescriptor) (hq : strIncludes name ":" = true)
    (hf : findTool inv name = some t) :
    t ∈ inv ∧ SERVER_ALIAS_MAP (splitColonFirst name).1 = some t.server ∧
      t.name = (splitColonFirst name).2 := by
  simp only [findTool, hq, if_true] at hf
  rcases halias : SERVER_ALIAS_MAP (splitColonFirst name).1 with _ | server
  · rw [halias] at hf
    exact absurd hf (by simp)
  · rw [halias] at hf
    have hmem := List.mem_of_find?_eq_some hf
    have hp := List.find?_some hf
    rw [Bool.and_eq_true, beq_iff_eq, beq_iff_eq] at hp
    refine ⟨hmem, ?_, hp.2⟩
    rw [hp.1]

theorem findTool_qualified_none (inv : List ToolDescriptor) (name : String)
    (server : ServerName) (hq : strIncludes name ":" = true)
    (hf : findTool inv name = none)
    (halias : SERVER_ALIAS_MAP (splitColonFirst name).1 = some server) :
    ∀ t ∈ inv, ¬(t.server = server ∧ t.name = (splitColonFirst name).2) := by
  simp only [findTool, hq, if_true, halias] at hf
  intro t hmem ⟨hs, hn⟩
  have := List.find?_eq_none.mp hf t hmem
  simp [hs, hn] at this

theorem findTool_bare_none (inv : List ToolDescriptor) (name : String)
    (hq : strIncludes name ":" = false) :
    (findTool inv name = none ↔ ∀ t ∈ inv, t.name ≠ name) := by
  simp only [findTool, hq, Bool.false_eq_true, if_false]
  rcases hfound : inv.filter (fun t => t.name == name) with _ | ⟨a, rest⟩
  · rw [hfound]
    rw [List.filter_eq_nil_iff] at hfound
    simp only [true_iff]
    intro t hmem he
    exact hfound t hmem (by simp [he])
  · rw [hfound]
    have hamem : a ∈ inv.filter (fun t => t.name == name) := by rw [hfound]; simp
    rw [List.mem_filter, beq_iff_eq] at hamem
    constructor
    · intro hnone
      rcases hfind : (a :: rest).find? (fun t => t.isCanonical) with _ | u <;>
        rw [hfind] at hnone <;> simp at hnone
    · intro hall
      exact absurd hamem.2 (hall a hamem.1)

theorem findTool_bare_some (inv : List ToolDescriptor) (name : String)
    (t : ToolDescriptor) (hq : strIncludes name ":" = false)
    (hf : findTool inv name = some t) : t ∈ inv ∧ t.name = name := by
  simp only [findTool, hq, Bool.false_eq_true, if_false] at hf
  rcases hfound : inv.filter (fun t => t.name == name) with _ | ⟨a, rest⟩ <;>
    rw [hfound] at hf
  · exact absurd hf (by simp)
  · have hsub : t ∈ inv.filter (fun t => t.name == name) := by
      rw [hfound]
      rcases hfind : (a :: rest).find? (fun t => t.isCanonical) with _ | u <;>
        rw [hfind] at hf
      · simp only [List.head?_cons, Option.some.injEq] at hf
        rw [← hf]
        simp
      · simp only [Option.some.injEq] at hf
        rw [← hf]
        exact List.mem_of_find?_eq_some hfind
    rw [List.mem_filter, beq_iff_eq] at hsub
    exact hsub

theorem findTool_bare_canonical (inv : List ToolDescriptor) (name : String)
    (u : ToolDescriptor) (hq : strIncludes name ":" = false)
    (hu : u ∈ inv) (hun : u.name = name) (huc : u.isCanonical = true) :
    ∃ t, findTool inv name = some t ∧ t.isCanonical = true := by
  have humem : u ∈ inv.filter (fun t => t.name == name) :=
    List.mem_filter.mpr ⟨hu, by simp [hun]⟩
  have hsome : ((inv.filter (fun t => t.name == name)).find?
      (fun t => t.isCanonical)).isSome := by
    rw [List.find?_isSome]
    exact ⟨u, humem, huc⟩
  rcases hfind : (inv.filter (fun t => t.name == name)).find? (fun t => t.isCanonical)
    with _ | w
  · rw [hfind] at hsome
    simp at hsome
  · refine ⟨w, ?_, List.find?_some hfind⟩
    simp only [findTool, hq, Bool.false_eq_true, if_false]
    rcases hfound : inv.filter (fun t => t.name == name) with _ | ⟨a, rest⟩
    · rw [hfound] at humem
      simp at humem
    · rw [hfound] at hfind
      rw [hfound, hfind]

theorem findTool_bare_fallback (inv : List ToolDescriptor) (name : String)
    (hq : strIncludes name ":" = false)
    (hnc : ∀ u ∈ inv, u.name = name → u.isCanonical = false) :
    findTool inv name = (inv.filter (fun t => t.name == name)).head? := by
  have hfind : (inv.filter (fun t => t.name == name)).find? (fun t => t.isCanonical) = none := by
    rw [List.find?_eq_none]
    intro x hx
    rw [List.mem_filter, beq_iff_eq] at hx
    simp [hnc x hx.1 hx.2]
  simp only [findTool, hq, Bool.false_eq_true, if_false]
  rcases hfound : inv.filter (fun t => t.name == name) with _ | ⟨a, rest⟩
  · rw [hfound]
    rfl
  · rw [hfound] at hfind
    rw [hfound, hfind]

theorem collisionCanonical_iff (nm : String) (sv : ServerName) :
    collisionCanonical nm sv = true ↔
      ((∀ kv ∈ TOOL_COLLISIONS, kv.1 ≠ nm) ∨ (nm, sv) ∈ TOOL_COLLISIONS) := by
  by_cases h1 : nm = "comet_connect"
  · subst h1
    cases sv <;> decide
  · by_cases h2 : nm = "comet_screenshot"
    · subst h2
      cases sv <;> decide
    · have hf : List.find? (fun kv => kv.1 == nm) TOOL_COLLISIONS = none := by
        rw [List.find?_eq_none]
        intro kv hkv
        simp only [TOOL_COLLISIONS, List.mem_cons, List.not_mem_nil, or_false] at hkv
        rcases hkv with rfl | rfl
        · simp only [beq_iff_eq]
          exact fun h => h1 h.symm
        · simp only [beq_iff_eq]
          exact fun h => h2 h.symm
      rw [collisionCanonical, hf]
      constructor
      · intro _
        left
        intro kv hkv
        simp only [TOOL_COLLISIONS, List.mem_cons, List.not_mem_nil, or_false] at hkv
        rcases hkv with rfl | rfl
        · exact fun h => h1 h.symm
        · exact fun h => h2 h.symm
      · intro _
        rfl

/-- C9. After `initialize()`, every inventory tool's `qualifiedName` is
`alias:name` and its `isCanonical` flag holds iff the tool's name is not in
the collision map or the map's declared winner is the tool's server; an
alias-qualified lookup resolves only within the named server to that exact
tool name (and its `null` means no such tool); a bare lookup returns `null`
exactly when no inventory tool bears the name, prefers a tool flagged
canonical, and falls back to the first name match when none is flagged. -/
theorem c9_find_tool_resolution (localTools remoteTools : List ToolDescriptor)
    (name : String) :
    (∀ t ∈ routerInitialize localTools remoteTools,
      (t.isCanonical = true ↔
        ((∀ kv ∈ TOOL_COLLISIONS, kv.1 ≠ t.name) ∨ (t.name, t.server) ∈ TOOL_COLLISIONS)) ∧
      t.qualifiedName = SERVER_NAME_TO_ALIAS t.server ++ ":" ++ t.name) ∧
    (strIncludes name ":" = true →
      (∀ t, findTool (routerInitialize localTools remoteTools) name = some t →
        t ∈ routerInitialize localTools remoteTools ∧
        SERVER_ALIAS_MAP (splitColonFirst name).1 = some t.server ∧
        t.name = (splitColonFirst name).2) ∧
      (findTool (routerInitialize localTools remoteTools) name = none →
        ∀ server, SERVER_ALIAS_MAP (splitColonFirst name).1 = some server →
          ∀ t ∈ routerInitialize localTools remoteTools,
            ¬(t.server = server ∧ t.name = (splitColonFirst name).2))) ∧
    (strIncludes name ":" = false →
      (findTool (routerInitialize localTools remoteTools) name = none ↔
        ∀ t ∈ routerInitialize localTools remoteTools, t.name ≠ name) ∧
      (∀ t, findTool (routerInitialize localTools remoteTools) name = some t →
        t ∈ routerInitialize localTools remoteTools ∧ t.name = name) ∧
      ((∃ u ∈ routerInitialize localTools remoteTools, u.name = name ∧ u.isCanonical = true) →
        ∃ t, findTool (routerInitialize localTools remoteTools) name = some t ∧
          t.isCanonical = true) ∧
      ((∀ u ∈ routerInitialize localTools remoteTools, u.name = name → u.isCanonical = false) →
        findTool (routerInitialize localTools remoteTools) name =
          ((routerInitialize localTools remoteTools).filter (fun t => t.name == name)).head?)) := by
  refine ⟨?_, fun hq => ⟨fun t => findTool_qualified_sound _ _ t hq,
    fun hf server halias => findTool_qualified_none _ _ server hq hf halias⟩,
    fun hq => ⟨findTool_bare_none _ _ hq, fun t => findTool_bare_some _ _ t hq,
    fun he => by
      obtain ⟨u, hu, hun, huc⟩ := he
      exact findTool_bare_canonical _ _ u hq hu hun huc,
    findTool_bare_fallback _ _ hq⟩⟩
  intro t ht
  rw [routerInitialize, List.mem_map] at ht
  obtain ⟨orig, hmem, rfl⟩ := ht
  exact ⟨collisionCanonical_iff orig.name orig.server, rfl⟩

def c9Local : List ToolDescriptor :=
  [{ name := "comet_connect", qualifiedName := "", server := .cometMcp, category := "ai",
     schema := [], description := "connect via the local server", isCanonical := false }]

def c9Remote : List ToolDescriptor :=
  [{ name := "comet_connect", qualifiedName := "", server := .cometBrowser, category := "dom",
     schema := [], description := "connect via the remote bridge", isCanonical := false }]

/-- Witness for C9: with `comet_connect` offered by both servers, the bare
lookup picks the canonical (collision-map winner) copy, and a name that no
tool bears resolves to `null`. -/
theorem c9_find_tool_resolution_witness :
    (∃ t, findTool (routerInitialize c9Local c9Remote) "comet_connect" = some t ∧
      t.isCanonical = true) ∧
    (findTool (routerInitialize c9Local c9Remote) "zz" = none ↔
      ∀ t ∈ routerInitialize c9Local c9Remote, t.name ≠ "zz") := by
  refine ⟨((c9_find_tool_resolution c9Local c9Remote "comet_connect").2.2
    (by decide)).2.2.1 ?_,
    ((c9_find_tool_resolution c9Local c9Remote "zz").2.2 (by decide)).1⟩
  refine ⟨(routerInitialize c9Local c9Remote).head (by decide), ?_, by decide, by decide⟩
  decide

/-! ### C10: step defaults versus extracted values -/

theorem pget_append_single_ne (k k2 : String) (v : JSVal) (h : ¬(k2 = k)) :
    ∀ p : Params, pget (p ++ [(k2, v)]) k = pget p k := by
  intro p
  induction p with
  | nil =>
    simp only [List.nil_append, pget]
    rw [if_neg (by simp [h])]
  | cons kv p ih =>
    rw [List.cons_append]
    simp only [pget]
    rw [ih]

theorem pget_replace_ne (k k2 : String) (v : JSVal) (h : ¬(k2 = k)) :
    ∀ p : Params,
      pget (p.map (fun kv => if kv.1 == k2 then (k2, v) else kv)) k = pget p k := by
  intro p
  induction p with
  | nil => rfl
  | cons kv p ih =>
    rw [List.map_cons]
    by_cases hk : kv.1 == k2
    · rw [if_pos hk]
      simp only [pget]
      rw [ih, if_neg (by simp [h]), if_neg]
      rw [beq_iff_eq] at hk
      simp [hk, h]
    · rw [if_neg hk]
      simp only [pget]
      rw [ih]

theorem pget_pset_ne (p : Params) (k k2 : String) (v : JSVal) (h : ¬(k2 = k)) :
    pget (pset p k2 v) k = pget p k := by
  unfold pset
  by_cases ha : List.any p (fun kv => kv.1 == k2) = true
  · rw [if_pos ha]
    exact pget_replace_ne k k2 v h p
  · rw [if_neg ha]
    exact pget_append_single_ne k k2 v h p

theorem pget_condWrite (params extracted : Params) (ek gk wk key : String) (v : JSVal)
    (hdef : pget params key = some v) (htruthy : truthy v = true)
    (hkey : wk = key → gk = key) :
    pget (if truthyO (pget extracted ek) && !truthyO (pget params gk) then
            pset params wk ((pget extracted ek).getD .null)
          else params) key = some v := by
  by_cases hg : (truthyO (pget extracted ek) && !truthyO (pget params gk)) = true
  · rw [if_pos hg]
    by_cases hw : wk = key
    · exfalso
      rw [Bool.and_eq_true] at hg
      rw [hkey hw, hdef] at hg
      have h2 := hg.2
      rw [Bool.not_eq_true'] at h2
      simp only [truthyO] at h2
      rw [htruthy] at h2
      exact absurd h2 (by simp)
    · rw [pget_pset_ne _ _ _ _ hw]
      exact hdef
  · rw [if_neg hg]
    exact hdef

/-- C10 (amended). For every template step and every key whose `paramTemplate`
default is truthy, the built step's `params` still map that key to the
default — extracted values never override it — except through the
`comet_get_content` hole, where the guard checks `selector` but the write
lands on `extractionHint`. -/
theorem c10_truthy_defaults_preserved (template : TaskTemplate) (extracted : Params)
    (i : Nat) (ts : TaskTemplateStep) (key : String) (v : JSVal)
    (hstep : template.steps[i]? = some ts)
    (hdef : pget ts.paramTemplate key = some v)
    (htruthy : truthy v = true)
    (hnot : ¬(ts.toolName = "comet_get_content" ∧ key = "extractionHint")) :
    ∃ st, (buildTaskSteps template extracted)[i]? = some st ∧
      st.toolName = ts.toolName ∧ st.server = ts.server ∧
      pget st.params key = some v := by
  rw [buildTaskSteps, List.getElem?_map, hstep, Option.map_some']
  refine ⟨_, rfl, rfl, rfl, ?_⟩
  dsimp only
  cases h1 : ts.toolName == "comet_ask"
  case true =>
    rw [if_pos rfl]
    exact pget_condWrite ts.paramTemplate extracted "prompt" "prompt" "prompt" key v
      hdef htruthy (fun he => he)
  case false =>
  rw [if_neg (fun h => Bool.noConfusion h)]
  cases h2 : ts.toolName == "comet_navigate"
  case true =>
    rw [if_pos rfl]
    exact pget_condWrite ts.paramTemplate extracted "url" "url" "url" key v
      hdef htruthy (fun he => he)
  case false =>
  rw [if_neg (fun h => Bool.noConfusion h)]
  cases h3 : ts.toolName == "comet_type"
  case true =>
    rw [if_pos rfl]
    have hinner := pget_condWrite ts.paramTemplate extracted "query" "text" "text" key v
      hdef htruthy (fun he => he)
    exact pget_condWrite _ extracted "promptCommand" "text" "text" key v
      hinner htruthy (fun he => he)
  case false =>
  rw [if_neg (fun h => Bool.noConfusion h)]
  cases h4 : ts.toolName == "comet_get_content"
  case true =>
    rw [if_pos rfl]
    exact pget_condWrite ts.paramTemplate extracted "extractionTarget" "selector"
      "extractionHint" key v hdef htruthy
      (fun he => (hnot ⟨beq_iff_eq.mp h4, he.symm⟩).elim)
  case false =>
  rw [if_neg (fun h => Bool.noConfusion h)]
  cases h5 : ts.toolName == "comet_find_elements"
  case true =>
    rw [if_pos rfl]
    exact pget_condWrite ts.paramTemplate extracted "target" "selector" "selector" key v
      hdef htruthy (fun he => by rw [he])
  case false =>
  rw [if_neg (fun h => Bool.noConfusion h)]
  cases h6 : ts.toolName == "comet_click"
  case true =>
    rw [if_pos rfl]
    exact pget_condWrite ts.paramTemplate extracted "target" "selector" "selector" key v
      hdef htruthy (fun he => by rw [he])
  case false =>
  rw [if_neg (fun h => Bool.noConfusion h)]
  exact hdef

def c10Wit : TaskTemplate :=
  { name := "custom-nav", description := "navigate with a pinned url",
    triggerPatterns := ["pinned"],
    defaultParams := [],
    steps := [{ toolName := "comet_navigate", server := .cometBrowser,
                paramTemplate := [("url", .str "https://fixed")],
                description := "Navigate to the pinned URL", optional := false }] }

def c10Ext : Params := [("url", JSVal.str "https://other")]

/-- Witness for C10: a `comet_navigate` step whose `paramTemplate` pins a
truthy `url`; the extracted bag offers a different `url`, and the built step
keeps the pinned one. -/
theorem c10_truthy_defaults_preserved_witness :
    ∃ st, (buildTaskSteps c10Wit c10Ext)[0]? = some st ∧
      st.toolName = (c10Wit.steps.get ⟨0, by decide⟩).toolName ∧
      st.server = (c10Wit.steps.get ⟨0, by decide⟩).server ∧
      pget st.params "url" = some (.str "https://fixed") :=
  c10_truthy_defaults_preserved c10Wit c10Ext 0 (c10Wit.steps.get ⟨0, by decide⟩) "url"
    (.str "https://fixed") (by decide) (by decide) (by decide) (by decide)

def c10Tpl : TaskTemplate :=
  { name := "custom-extract", description := "extraction with a preset hint",
    triggerPatterns := ["zz"],
    defaultParams := [("extractionTarget", .str "b")],
    steps := [{ toolName := "comet_get_content", server := .cometBrowser,
                paramTemplate := [("extractionHint", .str "a")],
                description := "Extract with a preset hint", optional := false }] }

def c10TplAsk : TaskTemplate :=
  { name := "custom-ask", description := "ask with an empty preset prompt",
    triggerPatterns := ["qq"],
    defaultParams := [("prompt", .str "p")],
    steps := [{ toolName := "comet_ask", server := .cometMcp,
                paramTemplate := [("prompt", .str "")],
                description := "Ask with the preset prompt", optional := false }] }

/-- Counterexample to C10 as stated: a matched template whose
`comet_get_content` step presets `extractionHint := "a"` has it overwritten
by the extracted `extractionTarget` (the guard checks `selector`, the write
lands on `extractionHint`); and a preset falsy default (`prompt := ""`) is
also overwritten, because the code only protects truthy values. -/
theorem c10_default_override_counterexample :
    registryMatch [c10Tpl] "zz" = some c10Tpl ∧
    (c10Tpl.steps.map (fun s => pget s.paramTemplate "extractionHint")) = [some (.str "a")] ∧
    ((buildTaskSteps c10Tpl (extractParamsForTemplate "zz" c10Tpl)).map
      (fun st => pget st.params "extractionHint")) = [some (.str "b")] ∧
    registryMatch [c10TplAsk] "qq" = some c10TplAsk ∧
    (c10TplAsk.steps.map (fun s => pget s.paramTemplate "prompt")) = [some (.str "")] ∧
    ((buildTaskSteps c10TplAsk (extractParamsForTemplate "qq" c10TplAsk)).map
      (fun st => pget st.params "prompt")) = [some (.str "p")] := by decide
